import Mathlib

/-!
# Nachos MP3 scheduler (`threads/scheduler.cc`) and MP4 file headers (`filesys/filehdr.cc`)

A shallow embedding of the multilevel ready-queue scheduler; the file-header
routines follow in the second part of the definitions.

* Threads live in a heap `Tid → Thread`; a `Thread *` is a `Tid`.  The ready
  queues hold pointers, so a queue is a `List Tid` and a comparator reads the
  heap at the moment it is called.
* C++ `int` is `Int`; the model covers executions without signed overflow
  (which C++ leaves undefined).
* `ASSERT` failures abort the kernel: an operation returns `Except.error k`
  where `k` is the state at the failing assertion.
* `Thread::Yield`, `SWITCH`, `SaveUserState`, `CheckOverflow` and the debug
  output are external collaborators.  A call of `Yield` is recorded as the
  Boolean result of `ReadyToRun`; `Run` is the part of `Scheduler::Run` that
  executes before `SWITCH`.
-/

namespace Nachos

/-- A `Thread *`. -/
abbrev Tid := Nat

/-- Modelled from the spec: the thread status enumeration (`thread.h` is not
among the sources), "status ∈ {READY, RUNNING, BLOCKED, FINISHED}". -/
inductive ThreadStatus
  | READY
  | RUNNING
  | BLOCKED
  | FINISHED
  deriving DecidableEq

/-- Modelled from the spec: the thread record (`thread.h` is not among the
sources), "priority (integer), CPU-burst estimate (numeric, ticks), status,
accumulated wait-time, last-scheduled timestamp".  The fields `priority`,
`CPUBurstTime`, `stick` and `listBelong` are the ones `scheduler.cc` touches
directly; the estimate is only ever written from an `int`, so it is an
`Int`. -/
structure Thread where
  priority : Int
  CPUBurstTime : Int
  status : ThreadStatus
  waitingTime : Int
  stick : Int
  listBelong : Int
  deriving DecidableEq

/-- Modelled from the spec: accessor `Thread::getPriority` (`thread.h` is not
among the sources); the record has one priority. -/
def Thread.getPriority (a : Thread) : Int := a.priority

/-- Modelled from the spec: accessor `Thread::getBurstTime` (`thread.h` is not
among the sources); the record has one burst estimate. -/
def Thread.getBurstTime (a : Thread) : Int := a.CPUBurstTime

/-- Modelled from the spec: accessor `Thread::getWaitingTime` (`thread.h` is
not among the sources). -/
def Thread.getWaitingTime (a : Thread) : Int := a.waitingTime

/-- Modelled from the spec: mutator `Thread::setPriority` (`thread.h` is not
among the sources). -/
def Thread.setPriority (a : Thread) (p : Int) : Thread := { a with priority := p }

/-- Modelled from the spec: mutator `Thread::setBurstTime` (`thread.h` is not
among the sources). -/
def Thread.setBurstTime (a : Thread) (b : Int) : Thread := { a with CPUBurstTime := b }

/-- Modelled from the spec: mutator `Thread::setStatus` (`thread.h` is not
among the sources). -/
def Thread.setStatus (a : Thread) (st : ThreadStatus) : Thread := { a with status := st }

/-- The heap of thread records. -/
abbrev Heap := Tid → Thread

/-- Source `cmp1`: compare by `CPUBurstTime`. -/
def cmp1 (h : Heap) (a b : Tid) : Int :=
  if (h a).CPUBurstTime > (h b).CPUBurstTime then 1
  else if (h a).CPUBurstTime < (h b).CPUBurstTime then -1
  else 0

/-- Source `cmp2`: compare by `priority`. -/
def cmp2 (h : Heap) (a b : Tid) : Int :=
  if (h a).priority > (h b).priority then 1
  else if (h a).priority < (h b).priority then -1
  else 0

/-- Source `compPriority`: on integers one of the three tests always succeeds. -/
def compPriority (h : Heap) (a b : Tid) : Int :=
  if (h a).getPriority = (h b).getPriority then 0
  else if (h a).getPriority > (h b).getPriority then 1
  else -1

/-- Source `compSJFS`: on integers one of the three tests always succeeds. -/
def compSJFS (h : Heap) (a b : Tid) : Int :=
  if (h a).getBurstTime = (h b).getBurstTime then 0
  else if (h a).getBurstTime > (h b).getBurstTime then 1
  else -1

/-- Modelled from the spec: `List<T>::Append` (`lib/list.h` is not among the
sources), "strict FIFO append": the item goes to the end of the list. -/
def List_Append (l : List Tid) (item : Tid) : List Tid := l ++ [item]

/-- Modelled from the spec: `List<T>::IsEmpty` (`lib/list.h` is not among the
sources). -/
def List_IsEmpty (l : List Tid) : Bool := l.isEmpty

/-- Modelled from the spec: `List<T>::RemoveFront` (`lib/list.h` is not among
the sources), "return and remove the front": the removed item and the rest.
It is only called on a non-empty list. -/
def List_RemoveFront : List Tid → Option Tid × List Tid
  | [] => (none, [])
  | x :: xs => (some x, xs)

/-- Modelled from the spec: `SortedList<T>::Insert` (`lib/list.h` is not among
the sources), "ordered ascending ...; ties broken by FIFO (stable) insertion
order": the item goes in front of the first element that compares strictly
greater, hence behind every element that compares equal. -/
def SortedList_Insert (compare : Tid → Tid → Int) (item : Tid) : List Tid → List Tid
  | [] => [item]
  | x :: xs =>
    if compare item x < 0 then item :: x :: xs
    else x :: SortedList_Insert compare item xs

/-- The kernel state the scheduler reads and writes: the thread heap,
`kernel->currentThread`, the two tick counters of `kernel->stats`, whether the
interrupt level is `IntOff`, and the fields of the `Scheduler` object. -/
structure Kernel where
  threads : Heap
  currentThread : Tid
  userTicks : Int
  totalTicks : Int
  intOff : Bool
  readyList : List Tid
  L1 : List Tid
  L2 : List Tid
  L3 : List Tid
  L1_readyList : List Tid
  L2_readyList : List Tid
  L3_readyList : List Tid
  toBeDestroyed : Option Tid

/-- Source `Scheduler::Scheduler`: all queues empty, nothing to destroy.  The rest of
the kernel state is given. -/
def Scheduler.new (threads : Heap) (currentThread : Tid) (userTicks totalTicks : Int)
    (intOff : Bool) : Kernel :=
  { threads := threads, currentThread := currentThread, userTicks := userTicks,
    totalTicks := totalTicks, intOff := intOff,
    readyList := [], L1 := [], L2 := [], L3 := [],
    L1_readyList := [], L2_readyList := [], L3_readyList := [],
    toBeDestroyed := none }

/-- Write one thread record of the heap. -/
def Kernel.setThread (k : Kernel) (t : Tid) (v : Thread) : Kernel :=
  { k with threads := Function.update k.threads t v }

/-- Lines 126-135 of `Scheduler::ReadyToRun`: the band the thread goes to. -/
def ReadyToRun_band (k : Kernel) (thread : Tid) : Kernel :=
  if (k.threads thread).priority ≥ 0 ∧ (k.threads thread).priority ≤ 49 then
    let k1 := { k with L3 := List_Append k.L3 thread }
    k1.setThread thread { k1.threads thread with listBelong := 3 }
  else if (k.threads thread).priority ≤ 99 then
    let k1 := { k with L2 := SortedList_Insert (cmp2 k.threads) thread k.L2 }
    k1.setThread thread { k1.threads thread with listBelong := 2 }
  else if (k.threads thread).priority ≤ 149 then
    let k1 := { k with L1 := SortedList_Insert (cmp1 k.threads) thread k.L1 }
    k1.setThread thread { k1.threads thread with listBelong := 1 }
  else k

/-- The served time of the running thread as `ReadyToRun` computes it,
`int currentBurstTime = getBurstTime()*0.5 + (userTicks - stick)*0.5`: both
products and their sum are exact in `double`, and the conversion to `int`
truncates toward zero. -/
def currentBurstTime (k : Kernel) : Int :=
  Int.tdiv ((k.threads k.currentThread).getBurstTime
    + (k.userTicks - (k.threads k.currentThread).stick)) 2

/-- Lines 141-156 of `Scheduler::ReadyToRun`: the second set of queues and the
preemption check.  The Boolean says whether `kernel->currentThread->Yield()`
is called. -/
def ReadyToRun_preempt (k : Kernel) (thread : Tid) : Kernel × Bool :=
  let p := (k.threads thread).getPriority
  if p > 99 then
    let k1 := { k with L1_readyList := SortedList_Insert (compSJFS k.threads) thread k.L1_readyList }
    if currentBurstTime k1 > (k1.threads thread).getBurstTime then (k1, true)
    else (k1, false)
  else if p > 49 then
    ({ k with L2_readyList := SortedList_Insert (compPriority k.threads) thread k.L2_readyList },
      false)
  else if p ≥ 0 then
    ({ k with L3_readyList := List_Append k.L3_readyList thread }, false)
  else (k, false)

/-- The body of `Scheduler::ReadyToRun` after its `ASSERT`: mark the thread
`READY`, queue it, run the preemption check. -/
def ReadyToRun_body (k : Kernel) (thread : Tid) : Kernel × Bool :=
  let k1 := k.setThread thread ((k.threads thread).setStatus ThreadStatus.READY)
  let k2 := ReadyToRun_band k1 thread
  ReadyToRun_preempt k2 thread

/-- Source `Scheduler::ReadyToRun`: the state after the call and whether the running
thread was asked to yield. -/
def Scheduler.ReadyToRun (k : Kernel) (thread : Tid) : Except Kernel (Kernel × Bool) :=
  if k.intOff = false then Except.error k
  else Except.ok (ReadyToRun_body k thread)

/-- Source `aging_mechanism`. -/
def aging_mechanism (k : Kernel) (a : Tid) : Kernel :=
  let old_priority := (k.threads a).getPriority
  if (k.threads a).getWaitingTime ≥ 1500 then
    k.setThread a ((k.threads a).setPriority (old_priority + 10))
  else k

/-- Source `Scheduler::FindNextToRun`: the returned pointer (`none` for `NULL`) and
the state after the call. -/
def Scheduler.FindNextToRun (k : Kernel) : Except Kernel (Option Tid × Kernel) :=
  if k.intOff = false then Except.error k
  else if List_IsEmpty k.L1 = false then
    Except.ok ((List_RemoveFront k.L1).1, { k with L1 := (List_RemoveFront k.L1).2 })
  else if List_IsEmpty k.L2 = false then
    Except.ok ((List_RemoveFront k.L2).1, { k with L2 := (List_RemoveFront k.L2).2 })
  else if List_IsEmpty k.L3 = false then
    Except.ok ((List_RemoveFront k.L3).1, { k with L3 := (List_RemoveFront k.L3).2 })
  else Except.ok (none, k)

/-- Lines 246-250 of `Scheduler::Run`: the burst-time update of the thread that
is switched away from. -/
def Run_updateBurstTime (k : Kernel) (oldThread : Tid) : Kernel :=
  let diff := (k.threads oldThread).getBurstTime - (k.userTicks - (k.threads oldThread).stick)
  if diff > 0 then k.setThread oldThread ((k.threads oldThread).setBurstTime diff)
  else k

/-- Lines 240-263 of `Scheduler::Run`: `kernel->currentThread` and the status
of `nextThread`, the burst-time update of `oldThread`, and the two time
stamps. -/
def Run_dispatch (k : Kernel) (oldThread nextThread : Tid) : Kernel :=
  let k2 := { k with currentThread := nextThread }
  let k3 := k2.setThread nextThread ((k2.threads nextThread).setStatus ThreadStatus.RUNNING)
  let k4 := Run_updateBurstTime k3 oldThread
  let k5 := k4.setThread nextThread { k4.threads nextThread with stick := k4.userTicks }
  k5.setThread oldThread { k5.threads oldThread with stick := k5.totalTicks }

/-- The assignments of `Scheduler::Run` between its two `ASSERT`s and `SWITCH`:
the pending-destroy slot, then lines 240-263.  `SaveUserState`,
`space->SaveState` and `CheckOverflow` act outside the modelled state. -/
def Run_body (k : Kernel) (nextThread : Tid) (finishing : Bool) : Kernel :=
  let oldThread := k.currentThread
  let k1 := if finishing = true then { k with toBeDestroyed := some oldThread } else k
  Run_dispatch k1 oldThread nextThread

/-- Source `Scheduler::Run` up to the call of `SWITCH`.  Both `ASSERT`s are evaluated
before the first assignment, so an aborted call leaves the state it was given. -/
def Scheduler.Run (k : Kernel) (nextThread : Tid) (finishing : Bool) : Except Kernel Kernel :=
  if k.intOff = false then Except.error k
  else if finishing = true ∧ k.toBeDestroyed ≠ none then Except.error k
  else Except.ok (Run_body k nextThread finishing)

/-- Source `Scheduler::CheckToBeDestroyed`: the slot is cleared; the deleted thread's
storage is not modelled. -/
def Scheduler.CheckToBeDestroyed (k : Kernel) : Kernel :=
  if k.toBeDestroyed ≠ none then { k with toBeDestroyed := none } else k

/-- A sequence of `ReadyToRun` calls, one per listed thread, in order.  A yield
request is a request to the running thread and is not acted on here. -/
def ReadyToRun_all : Kernel → List Tid → Except Kernel Kernel
  | k, [] => Except.ok k
  | k, t :: ts =>
    match Scheduler.ReadyToRun k t with
    | Except.error e => Except.error e
    | Except.ok r => ReadyToRun_all r.1 ts

/-- The results of `n` successive `FindNextToRun` calls and the final state. -/
def FindNextToRun_times : Nat → Kernel → Except Kernel (List (Option Tid) × Kernel)
  | 0, k => Except.ok ([], k)
  | n + 1, k =>
    match Scheduler.FindNextToRun k with
    | Except.error e => Except.error e
    | Except.ok r =>
      match FindNextToRun_times n r.2 with
      | Except.error e => Except.error e
      | Except.ok rs => Except.ok (r.1 :: rs.1, rs.2)

/-- Enqueue the listed threads, then call `FindNextToRun` `n` times: the
returned pointers. -/
def enqueue_then_dequeue (k : Kernel) (ts : List Tid) (n : Nat) : Option (List (Option Tid)) :=
  match ReadyToRun_all k ts with
  | Except.error _ => none
  | Except.ok k1 =>
    match FindNextToRun_times n k1 with
    | Except.error _ => none
    | Except.ok rs => some rs.1

/-- The band gained one occurrence of the thread. -/
def Placed (before after : List Tid) (t : Tid) : Prop :=
  after.count t = before.count t + 1

instance (before after : List Tid) (t : Tid) : Decidable (Placed before after t) := by
  unfold Placed; infer_instance

/-- A thread record with the given priority and burst estimate, for concrete
states. -/
def mkThread (priority burst : Int) : Thread :=
  { priority := priority, CPUBurstTime := burst, status := ThreadStatus.BLOCKED,
    waitingTime := 0, stick := 0, listBelong := 0 }

/-- A heap holding the listed records at addresses `0, 1, ...`. -/
def heapOf (ts : List Thread) : Heap := fun i => ts.getD i (mkThread 0 0)

/-- The three bands `FindNextToRun` dequeues from. -/
def Kernel.bands (k : Kernel) : List Tid × List Tid × List Tid := (k.L1, k.L2, k.L3)

/-- What one `ReadyToRun` call shows: the three bands after the call and
whether a yield was requested; `none` if the call aborted. -/
def ReadyToRun_view (k : Kernel) (t : Tid) : Option ((List Tid × List Tid × List Tid) × Bool) :=
  match Scheduler.ReadyToRun k t with
  | Except.error _ => none
  | Except.ok r => some (r.1.bands, r.2)

/-- A state for the band boundaries: thread 0 has priority -1, thread 1 has
priority 150, all queues are empty, interrupts are off. -/
def boundaryState : Kernel :=
  Scheduler.new (heapOf [mkThread (-1) 5, mkThread 150 5, mkThread 120 5]) 2 0 0 true

/-- What `ReadyToRun` does to L1 for thread `t`, read off lines 126-135. -/
def enqueueL1 (h : Heap) (l : List Tid) (t : Tid) : List Tid :=
  if 100 ≤ (h t).priority ∧ (h t).priority ≤ 149 then SortedList_Insert (cmp1 h) t l else l

/-- What `ReadyToRun` does to L2 for thread `t`, read off lines 126-135. -/
def enqueueL2 (h : Heap) (l : List Tid) (t : Tid) : List Tid :=
  if (h t).priority < 0 ∨ (50 ≤ (h t).priority ∧ (h t).priority ≤ 99)
  then SortedList_Insert (cmp2 h) t l else l

/-- What `ReadyToRun` does to L3 for thread `t`, read off lines 126-135. -/
def enqueueL3 (h : Heap) (l : List Tid) (t : Tid) : List Tid :=
  if 0 ≤ (h t).priority ∧ (h t).priority ≤ 49 then List_Append l t else l

/-- Scenario 1: threads 0, 1, 2 with priorities 120, 70, 20 on a new scheduler;
thread 3 is running. -/
def threeBandState : Kernel :=
  Scheduler.new (heapOf [mkThread 120 5, mkThread 70 5, mkThread 20 5, mkThread 0 0]) 3 0 0 true

/-- Scenario 2: threads 0 and 1, both of priority 110, with burst estimates 50
and 30, on a new scheduler; thread 2 is running. -/
def sjfState : Kernel :=
  Scheduler.new (heapOf [mkThread 110 50, mkThread 110 30, mkThread 0 0]) 2 0 0 true

/-- Four threads for L2 (priorities 70, 60, 70, 50) on a new scheduler; thread
4 is running. -/
def priorityState : Kernel :=
  Scheduler.new
    (heapOf [mkThread 70 1, mkThread 60 2, mkThread 70 3, mkThread 50 4, mkThread 0 0]) 4 0 0 true

/-- Three threads for L3 (priorities 40, 10, 30, burst estimates 9, 5, 7) on a
new scheduler; thread 3 is running. -/
def fifoState : Kernel :=
  Scheduler.new (heapOf [mkThread 40 9, mkThread 10 5, mkThread 30 7, mkThread 0 0]) 3 0 0 true

/-- The served time of the running thread computed exactly, as a rational:
`0.5 * b + 0.5 * e` with `b` its burst estimate and `e = userTicks - stick`. -/
def servedTime_exact (k : Kernel) : ℚ :=
  (1 / 2) * ((k.threads k.currentThread).getBurstTime : ℚ)
    + (1 / 2) * ((k.userTicks - (k.threads k.currentThread).stick : Int) : ℚ)

/-- The running thread 0 has burst estimate 21 and was scheduled at tick 0; now
`userTicks = 20`.  Thread 1 has priority 130 and estimate 20, thread 2 has
priority 150 and estimate 0.  New scheduler, interrupts off. -/
def truncationState : Kernel :=
  Scheduler.new (heapOf [mkThread 0 21, mkThread 130 20, mkThread 150 0]) 0 20 20 true

/-- Scenario 3: the running thread 0 has burst estimate 50 and has run 30
ticks, so its served time is 40; thread 1 has priority 130 and estimate 20. -/
def preemptState : Kernel :=
  Scheduler.new (heapOf [mkThread 0 50, mkThread 130 20]) 0 30 30 true

/-- The burst estimate of thread `t` after `Run`; `none` if the call aborted. -/
def Run_burstAfter (k : Kernel) (nextThread : Tid) (finishing : Bool) (t : Tid) : Option Int :=
  match Scheduler.Run k nextThread finishing with
  | Except.error _ => none
  | Except.ok k1 => some (k1.threads t).getBurstTime

/-- The running thread 0 has burst estimate 10 and time stamp 0, `userTicks` is
4; thread 1 is the next thread.  New scheduler, interrupts off. -/
def burstState : Kernel :=
  Scheduler.new (heapOf [mkThread 0 10, mkThread 0 3]) 0 4 4 true

/-- The running thread 0 has burst estimate 3 and time stamp 0, `userTicks` is
5, so it used more than predicted; thread 1 is the next thread. -/
def overrunState : Kernel :=
  Scheduler.new (heapOf [mkThread 0 3, mkThread 0 8]) 0 5 5 true

/-- Scenario 4: thread 0 is running and finishing, thread 1 is next, and the
pending-destroy slot already holds thread 2. -/
def doubleFinishState : Kernel :=
  { Scheduler.new (heapOf [mkThread 0 10, mkThread 0 3, mkThread 0 1]) 0 4 4 true with
    toBeDestroyed := some 2 }

/-- One call on the scheduler: `ReadyToRun`, `FindNextToRun`, the part of
`Run` before `SWITCH`, or `CheckToBeDestroyed` (the first thing a resumed
thread does after `SWITCH`). -/
inductive SchedOp
  | readyToRun (thread : Tid)
  | findNextToRun
  | run (nextThread : Tid) (finishing : Bool)
  | checkToBeDestroyed
  deriving DecidableEq

/-- The state after one call; an aborted call gives the state at the abort. -/
def SchedOp.exec (k : Kernel) : SchedOp → Except Kernel Kernel
  | SchedOp.readyToRun thread =>
    match Scheduler.ReadyToRun k thread with
    | Except.error e => Except.error e
    | Except.ok r => Except.ok r.1
  | SchedOp.findNextToRun =>
    match Scheduler.FindNextToRun k with
    | Except.error e => Except.error e
    | Except.ok r => Except.ok r.2
  | SchedOp.run nextThread finishing => Scheduler.Run k nextThread finishing
  | SchedOp.checkToBeDestroyed => Except.ok (Scheduler.CheckToBeDestroyed k)

/-- A sequence of calls, stopping at the first abort. -/
def execOps : Kernel → List SchedOp → Except Kernel Kernel
  | k, [] => Except.ok k
  | k, op :: ops =>
    match SchedOp.exec k op with
    | Except.error e => Except.error e
    | Except.ok k1 => execOps k1 ops

/-- Whether a sequence of calls, entered with `pending` telling if a finishing
`Run` is outstanding, ends between a `Run` with `finishing = true` and the next
`CheckToBeDestroyed`. -/
def finishPending : Bool → List SchedOp → Bool
  | pending, [] => pending
  | _, SchedOp.run _ true :: ops => finishPending true ops
  | _, SchedOp.checkToBeDestroyed :: ops => finishPending false ops
  | pending, _ :: ops => finishPending pending ops

/-- The state after a sequence of calls; `none` if one of them aborted. -/
def execOps_view (k : Kernel) (ops : List SchedOp) : Option Kernel :=
  match execOps k ops with
  | Except.error _ => none
  | Except.ok k1 => some k1

/-- Threads 0 (priority 120) and 1 (priority 20) on a new scheduler; thread 2
is running. -/
def slotState : Kernel :=
  Scheduler.new (heapOf [mkThread 120 5, mkThread 20 5, mkThread 0 0]) 2 0 0 true

/-- A `READY` thread record queued in band `band`, with the given priority,
burst estimate and accumulated wait-time. -/
def mkQueued (priority burst wait band : Int) : Thread :=
  { priority := priority, CPUBurstTime := burst, status := ThreadStatus.READY,
    waitingTime := wait, stick := 0, listBelong := band }

/-- Scenario 5: thread 0 is queued in L3 at priority 10 and has waited 1600
ticks; thread 1 (priority 20) is about to be enqueued; thread 2 is running. -/
def agingState : Kernel :=
  { Scheduler.new (heapOf [mkQueued 10 5 1600 3, mkThread 20 5, mkThread 0 0]) 2 0 0 true with
    L3 := [0], L3_readyList := [0] }

/-- Thread 0 has priority 145 and has waited 1500 ticks; thread 1 is running. -/
def topPriorityState : Kernel :=
  Scheduler.new (heapOf [mkQueued 145 5 1500 0, mkThread 0 0]) 1 0 0 true

/-- Thread 0 has priority 150, thread 1 has priority -1, both blocked; thread
2 is running on a new scheduler. -/
def outOfRangeState : Kernel :=
  Scheduler.new (heapOf [mkThread 150 5, mkThread (-1) 5, mkThread 0 0]) 2 0 0 true

/-- What `ReadyToRun` leaves behind for the thread it was given: its status,
the three bands `[L1, L2, L3]`, and the second set of queues
`[L1_readyList, L2_readyList, L3_readyList]`; `none` if the call aborted. -/
def ReadyToRun_status_view (k : Kernel) (t : Tid) :
    Option (ThreadStatus × List (List Tid) × List (List Tid)) :=
  match Scheduler.ReadyToRun k t with
  | Except.error _ => none
  | Except.ok r =>
    some ((r.1.threads t).status, [r.1.L1, r.1.L2, r.1.L3],
      [r.1.L1_readyList, r.1.L2_readyList, r.1.L3_readyList])

/-- All seven queues the `Scheduler` object owns, in the order of its
constructor. -/
def Kernel.queues (k : Kernel) : List (List Tid) :=
  [k.readyList, k.L1, k.L2, k.L3, k.L1_readyList, k.L2_readyList, k.L3_readyList]

/-- In how many of the scheduler queues a thread is present. -/
def Kernel.membership (k : Kernel) (t : Tid) : Nat :=
  (k.queues.filter (fun q => decide (t ∈ q))).length

/-- The priority of thread `u` after `ReadyToRun k t`; `none` if the call
aborted. -/
def ReadyToRun_priority_view (k : Kernel) (t u : Tid) : Option Int :=
  match Scheduler.ReadyToRun k t with
  | Except.error _ => none
  | Except.ok r => some (r.1.threads u).getPriority

/-! # File headers (`filesys/filehdr.cc`)

`filehdr.h`, `lib/bitmap.h`, `lib/utility.h` and the disk are not among the
sources.  What `filehdr.cc` takes from them is a parameter of the model: the
constants `SectorSize`, `L0` ... `L3`, the macro `divRoundUp`, and the bitmap
operations `NumClear`, `FindAndSet`, `Test`, `Clear` over a bitmap type `B`.
Header sectors on disk are a map from sector numbers to headers.  Array bounds
of `dataSectors` are not modelled. -/

/-- What `filehdr.cc` uses from the headers that are not among the sources. -/
structure FileSysEnv (B : Type) where
  SectorSize : Int
  L0 : Int
  L1 : Int
  L2 : Int
  L3 : Int
  divRoundUp : Int → Int → Int
  NumClear : B → Int
  FindAndSet : B → Int × B
  Test : B → Int → Bool
  Clear : B → Int → B

/-- The in-memory file header: `numBytes`, `numSectors` and the table
`dataSectors`. -/
structure FileHeader where
  numBytes : Int
  numSectors : Int
  dataSectors : Int → Int

/-- Source `FileHeader::FileHeader`: both counters and every table entry are -1. -/
def FileHeader.new : FileHeader :=
  { numBytes := -1, numSectors := -1, dataSectors := fun _ => -1 }

/-- The free-sector map and the headers held by disk sectors (`none`: the
sector holds no header). -/
structure FsState (B : Type) where
  freeMap : B
  disk : Int → Option FileHeader

/-- Why an operation did not return: a failed `ASSERT`, a `FetchFrom` of a
sector that holds no header, or the fuel of the model ran out. -/
inductive Fault
  | assertion
  | noHeader
  | outOfFuel
  deriving DecidableEq

/-- Lines 78-82 of `FileHeader::Allocate`: `n` more rounds of the loop over the
direct table, at index `i`. -/
def Allocate_direct {B : Type} (E : FileSysEnv B) :
    Nat → Int → FileHeader → B → Except Fault (FileHeader × B)
  | 0, _, hdr, fm => Except.ok (hdr, fm)
  | n + 1, i, hdr, fm =>
    let r := E.FindAndSet fm
    let hdr1 := { hdr with dataSectors := Function.update hdr.dataSectors i r.1 }
    if r.1 ≥ 0 then Allocate_direct E n (i + 1) hdr1 r.2
    else Except.error Fault.assertion

/-- The level size chosen on lines 86-95 of `Allocate` and 197-207 of
`ByteToSector`. -/
def levelSizeOf {B : Type} (E : FileSysEnv B) (size : Int) : Int :=
  if size ≤ E.L1 then E.L0
  else if size ≤ E.L2 then E.L1
  else if size ≤ E.L3 then E.L2
  else E.L3

/-- C-style `min`. -/
def minInt (a b : Int) : Int := if a < b then a else b

/-- Lines 96-101 of `FileHeader::Allocate`: the loop
`for (i = 0; fileSize > 0; i++, fileSize -= levelSize)`, with at most `n` more
rounds.  `child` is `Allocate` on a fresh header; its Boolean result is
ignored, and `WriteBack` stores the child header at `dataSectors[i]`. -/
def Allocate_children {B : Type} (E : FileSysEnv B)
    (child : FsState B → Int → Except Fault (Bool × FileHeader × FsState B))
    (levelSize : Int) :
    Nat → Int → Int → FileHeader → FsState B → Except Fault (FileHeader × FsState B)
  | 0, _, fileSize, hdr, w =>
    if fileSize > 0 then Except.error Fault.outOfFuel else Except.ok (hdr, w)
  | n + 1, i, fileSize, hdr, w =>
    if fileSize > 0 then
      let r := E.FindAndSet w.freeMap
      let hdr1 := { hdr with dataSectors := Function.update hdr.dataSectors i r.1 }
      match child { w with freeMap := r.2 } (minInt levelSize fileSize) with
      | Except.error e => Except.error e
      | Except.ok c =>
        let w2 := { c.2.2 with disk := Function.update c.2.2.disk (hdr1.dataSectors i) (some c.2.1) }
        Allocate_children E child levelSize n (i + 1) (fileSize - levelSize) hdr1 w2
    else Except.ok (hdr, w)

/-- Source `FileHeader::Allocate` on the header `hdr`: the returned Boolean, the
header and the state after the call.  The first argument bounds the depth of
the recursion. -/
def FileHeader.Allocate {B : Type} (E : FileSysEnv B) :
    Nat → FileHeader → FsState B → Int → Except Fault (Bool × FileHeader × FsState B)
  | 0, _, _, _ => Except.error Fault.outOfFuel
  | d + 1, hdr, w, fileSize =>
    let hdr1 := { hdr with numBytes := fileSize,
                           numSectors := E.divRoundUp fileSize E.SectorSize }
    if E.NumClear w.freeMap < hdr1.numSectors then Except.ok (false, hdr1, w)
    else if fileSize ≤ E.L0 then
      match Allocate_direct E hdr1.numSectors.toNat 0 hdr1 w.freeMap with
      | Except.error e => Except.error e
      | Except.ok r => Except.ok (true, r.1, { w with freeMap := r.2 })
    else
      match Allocate_children E (fun w1 size => FileHeader.Allocate E d FileHeader.new w1 size)
          (levelSizeOf E fileSize) fileSize.toNat 0 fileSize hdr1 w with
      | Except.error e => Except.error e
      | Except.ok r => Except.ok (true, r.1, r.2)

/-- Lines 140-144 of `FileHeader::Deallocate`: `n` more rounds of the loop over
the direct table, at index `i`. -/
def Deallocate_direct {B : Type} (E : FileSysEnv B) (hdr : FileHeader) :
    Nat → Int → B → Except Fault B
  | 0, _, fm => Except.ok fm
  | n + 1, i, fm =>
    if E.Test fm (hdr.dataSectors i) = true then
      Deallocate_direct E hdr n (i + 1) (E.Clear fm (hdr.dataSectors i))
    else Except.error Fault.assertion

/-- Lines 146-151 of `FileHeader::Deallocate`: `n` more rounds of the loop that
fetches the header at `dataSectors[i]` and deallocates it. -/
def Deallocate_children {B : Type} (child : FileHeader → B → Except Fault B)
    (disk : Int → Option FileHeader) (hdr : FileHeader) :
    Nat → Int → B → Except Fault B
  | 0, _, fm => Except.ok fm
  | n + 1, i, fm =>
    match disk (hdr.dataSectors i) with
    | none => Except.error Fault.noHeader
    | some c =>
      match child c fm with
      | Except.error e => Except.error e
      | Except.ok fm1 => Deallocate_children child disk hdr n (i + 1) fm1

/-- Source `FileHeader::Deallocate`: the free map after the call.  The first
argument bounds the depth of the recursion. -/
def FileHeader.Deallocate {B : Type} (E : FileSysEnv B) (disk : Int → Option FileHeader) :
    Nat → FileHeader → B → Except Fault B
  | 0, _, _ => Except.error Fault.outOfFuel
  | d + 1, hdr, fm =>
    if hdr.numBytes ≤ E.L0 then Deallocate_direct E hdr hdr.numSectors.toNat 0 fm
    else
      Deallocate_children (fun c fm1 => FileHeader.Deallocate E disk d c fm1) disk hdr
        hdr.numSectors.toNat 0 fm

/-- Source `FileHeader::ByteToSector`: `some s` when the call returns `s`, `none`
when control reaches the end of the function without a `return`.  The first
argument bounds the depth of the recursion. -/
def FileHeader.ByteToSector {B : Type} (E : FileSysEnv B) (disk : Int → Option FileHeader) :
    Nat → FileHeader → Int → Except Fault (Option Int)
  | 0, _, _ => Except.error Fault.outOfFuel
  | d + 1, hdr, offset =>
    if hdr.numBytes ≤ E.L0 then
      Except.ok (some (hdr.dataSectors (Int.tdiv offset E.SectorSize)))
    else
      let levelSize := levelSizeOf E hdr.numBytes
      let ind := Int.tdiv offset levelSize
      let off_offset := offset - ind * levelSize
      match disk (hdr.dataSectors ind) with
      | none => Except.error Fault.noHeader
      | some child =>
        match FileHeader.ByteToSector E disk d child off_offset with
        | Except.error e => Except.error e
        | Except.ok _ => Except.ok none

/-- A bitmap as the list of its bits, `true` for a sector in use. -/
abbrev ListBitmap := List Bool

/-- Number of clear bits. -/
def ListBitmap.NumClear (b : ListBitmap) : Int := (b.count false : Nat)

/-- Set the first clear bit and return its index, or return -1 if no bit is
clear. -/
def ListBitmap.FindAndSet (b : ListBitmap) : Int × ListBitmap :=
  if b.indexOf false < b.length then ((b.indexOf false : Nat), b.set (b.indexOf false) true)
  else (-1, b)

/-- Whether bit `which` is set; an index outside the map is not set. -/
def ListBitmap.Test (b : ListBitmap) (which : Int) : Bool :=
  if 0 ≤ which then b.getD which.toNat false else false

/-- Clear bit `which`. -/
def ListBitmap.Clear (b : ListBitmap) (which : Int) : ListBitmap :=
  if 0 ≤ which then b.set which.toNat false else b

/-- The quotient of two C `int`s rounded up, `n / s + (n % s > 0 ? 1 : 0)`. -/
def divRoundUp (n s : Int) : Int :=
  Int.tdiv n s + (if Int.tmod n s > 0 then 1 else 0)

/-- An instance of the missing parts for evaluating the code: 128-byte
sectors, 30 table entries per header (`L0 = 30 * 128`, each further level 30
times larger), and list bitmaps. -/
def stockEnv : FileSysEnv ListBitmap :=
  { SectorSize := 128, L0 := 3840, L1 := 115200, L2 := 3456000, L3 := 103680000,
    divRoundUp := divRoundUp,
    NumClear := ListBitmap.NumClear, FindAndSet := ListBitmap.FindAndSet,
    Test := ListBitmap.Test, Clear := ListBitmap.Clear }

/-- A disk of `n` sectors, all free, holding no header. -/
def emptyDisk (n : Nat) : FsState ListBitmap :=
  { freeMap := List.replicate n false, disk := fun _ => none }

/-- Run `Allocate` for `size` bytes on a fresh header and an empty disk of `n`
free sectors; `none` if the call did not return. -/
def Allocate_on (n : Nat) (size : Int) : Option (Bool × FileHeader × FsState ListBitmap) :=
  match FileHeader.Allocate stockEnv 5 FileHeader.new (emptyDisk n) size with
  | Except.error _ => none
  | Except.ok r => some r

/-- The outcome of a call as a sum: the fault on the left, the result on the
right. -/
def outcome {α : Type} : Except Fault α → Fault ⊕ α
  | Except.error e => Sum.inl e
  | Except.ok a => Sum.inr a

/-- Run `Allocate` as in `Allocate_on`, then `Deallocate` on the header it
filled in: the free map after `Deallocate`, or the reason it did not return. -/
def Deallocate_after_Allocate (n : Nat) (size : Int) : Option (Fault ⊕ ListBitmap) :=
  (Allocate_on n size).map
    (fun r => outcome (FileHeader.Deallocate stockEnv r.2.2.disk 5 r.2.1 r.2.2.freeMap))

/-- Run `Allocate` as in `Allocate_on`, then only the first `rounds` rounds of
the loop on lines 146-151 of `Deallocate` on the header it filled in. -/
def Deallocate_rounds_after_Allocate (n : Nat) (size : Int) (rounds : Nat) :
    Option (Fault ⊕ ListBitmap) :=
  (Allocate_on n size).map
    (fun r => outcome (Deallocate_children
      (fun c fm => FileHeader.Deallocate stockEnv r.2.2.disk 4 c fm) r.2.2.disk r.2.1 rounds 0
      r.2.2.freeMap))

/-- Run `Allocate` as in `Allocate_on`, then `ByteToSector offset` on the header
it filled in. -/
def ByteToSector_after_Allocate (n : Nat) (size offset : Int) : Option (Fault ⊕ Option Int) :=
  (Allocate_on n size).map
    (fun r => outcome (FileHeader.ByteToSector stockEnv r.2.2.disk 5 r.2.1 offset))

/-- Run `Allocate` as in `Allocate_on`, then `ByteToSector offset` on the child
header stored in the sector named by entry `i` of the table. -/
def ByteToSector_of_child (n : Nat) (size : Int) (i offset : Int) :
    Option (Option (Fault ⊕ Option Int)) :=
  (Allocate_on n size).map
    (fun r => (r.2.2.disk (r.2.1.dataSectors i)).map
      (fun c => outcome (FileHeader.ByteToSector stockEnv r.2.2.disk 4 c offset)))

/-- Band L1 is in ascending order of the current burst estimates of the
threads in it. -/
def L1_ascending (k : Kernel) : Prop :=
  k.L1.Pairwise (fun a b => (k.threads a).getBurstTime ≤ (k.threads b).getBurstTime)

instance (k : Kernel) : Decidable (L1_ascending k) := by
  unfold L1_ascending; infer_instance

/-- The threads of L1, front first, each with its current burst estimate. -/
def L1_estimates (k : Kernel) : List (Tid × Int) :=
  k.L1.map (fun a => (a, (k.threads a).getBurstTime))

/-- What the next `FindNextToRun` call returns; `none` if it aborts. -/
def FindNextToRun_view (k : Kernel) : Option (Option Tid) :=
  match Scheduler.FindNextToRun k with
  | Except.error _ => none
  | Except.ok r => some r.1

/-- Three threads of priority 120 with burst estimates 5, 8 and 10.  Thread 2
is running, was scheduled at tick 0, and `userTicks` is 6.  New scheduler,
interrupts off. -/
def yieldState : Kernel :=
  Scheduler.new (heapOf [mkThread 120 5, mkThread 120 8, mkThread 120 10]) 2 6 6 true

/-- Threads 1 and 0 become ready; then the running thread 2 yields: the next
thread is taken from the queues, thread 2 is passed to `ReadyToRun`, and `Run`
switches to the next thread. -/
def yieldTrace : List SchedOp :=
  [SchedOp.readyToRun 1, SchedOp.readyToRun 0,
    SchedOp.findNextToRun, SchedOp.readyToRun 2, SchedOp.run 0 false]

/-! ## Basic facts about the queue operations -/

theorem cmp1_congr {h h' : Heap} (e : ∀ a, (h' a).CPUBurstTime = (h a).CPUBurstTime) :
    cmp1 h' = cmp1 h := by
  funext a b
  simp [cmp1, e]

theorem cmp2_congr {h h' : Heap} (e : ∀ a, (h' a).priority = (h a).priority) :
    cmp2 h' = cmp2 h := by
  funext a b
  simp [cmp2, e]

theorem cmp1_neg_iff (h : Heap) (a b : Tid) :
    cmp1 h a b < 0 ↔ (h a).CPUBurstTime < (h b).CPUBurstTime := by
  unfold cmp1
  split_ifs with h1 h2 <;> simp <;> omega

theorem cmp2_neg_iff (h : Heap) (a b : Tid) :
    cmp2 h a b < 0 ↔ (h a).priority < (h b).priority := by
  unfold cmp2
  split_ifs with h1 h2 <;> simp <;> omega

theorem SortedList_Insert_perm (c : Tid → Tid → Int) (t : Tid) (l : List Tid) :
    (SortedList_Insert c t l).Perm (t :: l) := by
  induction l with
  | nil => simp [SortedList_Insert]
  | cons x xs ih =>
    unfold SortedList_Insert
    split_ifs with hc
    · exact List.Perm.refl _
    · exact (List.Perm.cons x ih).trans (List.Perm.swap t x xs)

theorem SortedList_Insert_count (c : Tid → Tid → Int) (t : Tid) (l : List Tid) :
    (SortedList_Insert c t l).count t = l.count t + 1 := by
  rw [(SortedList_Insert_perm c t l).count_eq]
  simp

/-- The state after the body of `ReadyToRun`, band by band. -/
theorem ReadyToRun_body_bands (k : Kernel) (t : Tid) :
    (ReadyToRun_body k t).1.L1 =
        (if 100 ≤ (k.threads t).priority ∧ (k.threads t).priority ≤ 149
          then SortedList_Insert (cmp1 k.threads) t k.L1 else k.L1) ∧
    (ReadyToRun_body k t).1.L2 =
        (if (k.threads t).priority < 0 ∨ (50 ≤ (k.threads t).priority ∧ (k.threads t).priority ≤ 99)
          then SortedList_Insert (cmp2 k.threads) t k.L2 else k.L2) ∧
    (ReadyToRun_body k t).1.L3 =
        (if 0 ≤ (k.threads t).priority ∧ (k.threads t).priority ≤ 49
          then List_Append k.L3 t else k.L3) := by
  have e1 : cmp1 (Function.update k.threads t ((k.threads t).setStatus ThreadStatus.READY))
      = cmp1 k.threads := by
    apply cmp1_congr
    intro a
    by_cases ha : a = t
    · subst ha; simp [Thread.setStatus]
    · simp [Function.update_noteq ha]
  have e2 : cmp2 (Function.update k.threads t ((k.threads t).setStatus ThreadStatus.READY))
      = cmp2 k.threads := by
    apply cmp2_congr
    intro a
    by_cases ha : a = t
    · subst ha; simp [Thread.setStatus]
    · simp [Function.update_noteq ha]
  simp only [ReadyToRun_body, ReadyToRun_band, ReadyToRun_preempt, Kernel.setThread,
    Thread.getPriority, Function.update_same, Thread.setStatus, Thread.setStatus] at e1 e2 ⊢
  refine ⟨?_, ?_, ?_⟩ <;> (split_ifs <;> first | omega | simp [e1, e2])

/-- The preemption part of `ReadyToRun` touches only the second set of queues. -/
theorem ReadyToRun_preempt_frame (k : Kernel) (t : Tid) :
    (ReadyToRun_preempt k t).1.threads = k.threads ∧
    (ReadyToRun_preempt k t).1.intOff = k.intOff ∧
    (ReadyToRun_preempt k t).1.currentThread = k.currentThread ∧
    (ReadyToRun_preempt k t).1.userTicks = k.userTicks ∧
    (ReadyToRun_preempt k t).1.totalTicks = k.totalTicks ∧
    (ReadyToRun_preempt k t).1.toBeDestroyed = k.toBeDestroyed ∧
    (ReadyToRun_preempt k t).1.L1 = k.L1 ∧
    (ReadyToRun_preempt k t).1.L2 = k.L2 ∧
    (ReadyToRun_preempt k t).1.L3 = k.L3 := by
  simp only [ReadyToRun_preempt]
  split_ifs <;> simp

/-- The band part of `ReadyToRun` writes only `listBelong` in the heap and
leaves the kernel fields outside the three bands alone. -/
theorem ReadyToRun_band_frame (k : Kernel) (t : Tid) :
    (∀ a, ((ReadyToRun_band k t).threads a).priority = (k.threads a).priority) ∧
    (∀ a, ((ReadyToRun_band k t).threads a).CPUBurstTime = (k.threads a).CPUBurstTime) ∧
    (∀ a, ((ReadyToRun_band k t).threads a).stick = (k.threads a).stick) ∧
    (∀ a, ((ReadyToRun_band k t).threads a).waitingTime = (k.threads a).waitingTime) ∧
    (∀ a, ((ReadyToRun_band k t).threads a).status = (k.threads a).status) ∧
    (ReadyToRun_band k t).intOff = k.intOff ∧
    (ReadyToRun_band k t).currentThread = k.currentThread ∧
    (ReadyToRun_band k t).userTicks = k.userTicks ∧
    (ReadyToRun_band k t).totalTicks = k.totalTicks ∧
    (ReadyToRun_band k t).toBeDestroyed = k.toBeDestroyed := by
  have upd : ∀ (v : Int) (a : Tid),
      (Function.update k.threads t { k.threads t with listBelong := v } a).priority
        = (k.threads a).priority ∧
      (Function.update k.threads t { k.threads t with listBelong := v } a).CPUBurstTime
        = (k.threads a).CPUBurstTime ∧
      (Function.update k.threads t { k.threads t with listBelong := v } a).stick
        = (k.threads a).stick ∧
      (Function.update k.threads t { k.threads t with listBelong := v } a).waitingTime
        = (k.threads a).waitingTime ∧
      (Function.update k.threads t { k.threads t with listBelong := v } a).status
        = (k.threads a).status := by
    intro v a
    by_cases ha : a = t
    · subst ha; simp
    · simp [Function.update_noteq ha]
  simp only [ReadyToRun_band, Kernel.setThread]
  split_ifs
  · exact ⟨fun a => (upd 3 a).1, fun a => (upd 3 a).2.1, fun a => (upd 3 a).2.2.1,
      fun a => (upd 3 a).2.2.2.1, fun a => (upd 3 a).2.2.2.2, rfl, rfl, rfl, rfl, rfl⟩
  · exact ⟨fun a => (upd 2 a).1, fun a => (upd 2 a).2.1, fun a => (upd 2 a).2.2.1,
      fun a => (upd 2 a).2.2.2.1, fun a => (upd 2 a).2.2.2.2, rfl, rfl, rfl, rfl, rfl⟩
  · exact ⟨fun a => (upd 1 a).1, fun a => (upd 1 a).2.1, fun a => (upd 1 a).2.2.1,
      fun a => (upd 1 a).2.2.2.1, fun a => (upd 1 a).2.2.2.2, rfl, rfl, rfl, rfl, rfl⟩
  · exact ⟨fun _ => rfl, fun _ => rfl, fun _ => rfl, fun _ => rfl, fun _ => rfl,
      rfl, rfl, rfl, rfl, rfl⟩

/-- Marking a thread `READY` changes only its status. -/
theorem setStatus_frame (k : Kernel) (t : Tid) (st : ThreadStatus) (a : Tid) :
    ((k.setThread t ((k.threads t).setStatus st)).threads a).priority = (k.threads a).priority ∧
    ((k.setThread t ((k.threads t).setStatus st)).threads a).CPUBurstTime
      = (k.threads a).CPUBurstTime ∧
    ((k.setThread t ((k.threads t).setStatus st)).threads a).stick = (k.threads a).stick ∧
    ((k.setThread t ((k.threads t).setStatus st)).threads a).waitingTime
      = (k.threads a).waitingTime := by
  by_cases ha : a = t
  · subst ha; simp [Kernel.setThread, Thread.setStatus]
  · simp [Kernel.setThread, Function.update_noteq ha]

/-- The body of `ReadyToRun` changes no priority, burst estimate, time stamp or
wait-time of any thread, and none of the kernel fields outside the queues. -/
theorem ReadyToRun_body_frame (k : Kernel) (t : Tid) :
    (∀ a, ((ReadyToRun_body k t).1.threads a).priority = (k.threads a).priority) ∧
    (∀ a, ((ReadyToRun_body k t).1.threads a).CPUBurstTime = (k.threads a).CPUBurstTime) ∧
    (∀ a, ((ReadyToRun_body k t).1.threads a).stick = (k.threads a).stick) ∧
    (∀ a, ((ReadyToRun_body k t).1.threads a).waitingTime = (k.threads a).waitingTime) ∧
    (ReadyToRun_body k t).1.intOff = k.intOff ∧
    (ReadyToRun_body k t).1.currentThread = k.currentThread ∧
    (ReadyToRun_body k t).1.userTicks = k.userTicks ∧
    (ReadyToRun_body k t).1.totalTicks = k.totalTicks ∧
    (ReadyToRun_body k t).1.toBeDestroyed = k.toBeDestroyed := by
  unfold ReadyToRun_body
  obtain ⟨p1, p2, p3, p4, p5, p6, -, -, -⟩ := ReadyToRun_preempt_frame
    (ReadyToRun_band (k.setThread t ((k.threads t).setStatus ThreadStatus.READY)) t) t
  obtain ⟨b1, b2, b3, b4, -, b5, b6, b7, b8, b9⟩ := ReadyToRun_band_frame
    (k.setThread t ((k.threads t).setStatus ThreadStatus.READY)) t
  have s := setStatus_frame k t ThreadStatus.READY
  simp only [p1, p2, p3, p4, p5, p6, b1, b2, b3, b4, b5, b6, b7, b8, b9]
  exact ⟨fun a => (s a).1, fun a => (s a).2.1, fun a => (s a).2.2.1, fun a => (s a).2.2.2,
    rfl, rfl, rfl, rfl, rfl⟩

/-- When the preemption part of `ReadyToRun` asks the running thread to yield. -/
theorem ReadyToRun_preempt_yield (k : Kernel) (t : Tid) :
    (ReadyToRun_preempt k t).2 = true ↔
      (99 < (k.threads t).priority ∧
        (k.threads t).CPUBurstTime <
          Int.tdiv ((k.threads k.currentThread).CPUBurstTime
            + (k.userTicks - (k.threads k.currentThread).stick)) 2) := by
  simp only [ReadyToRun_preempt, Thread.getPriority, Thread.getBurstTime, currentBurstTime]
  split_ifs with h1 h2 h3 h4 <;> simp_all

/-- When the body of `ReadyToRun` asks the running thread to yield. -/
theorem ReadyToRun_body_yield (k : Kernel) (t : Tid) :
    (ReadyToRun_body k t).2 = true ↔
      (99 < (k.threads t).priority ∧
        (k.threads t).CPUBurstTime <
          Int.tdiv ((k.threads k.currentThread).CPUBurstTime
            + (k.userTicks - (k.threads k.currentThread).stick)) 2) := by
  unfold ReadyToRun_body
  rw [ReadyToRun_preempt_yield]
  obtain ⟨b1, b2, b3, -, -, -, b6, b7, -, -⟩ := ReadyToRun_band_frame
    (k.setThread t ((k.threads t).setStatus ThreadStatus.READY)) t
  have s := setStatus_frame k t ThreadStatus.READY
  rw [b1, b2, b2, b3, b6, b7, (s _).1, (s _).2.1]
  have e : (k.setThread t ((k.threads t).setStatus ThreadStatus.READY)).currentThread
      = k.currentThread := rfl
  have e' : (k.setThread t ((k.threads t).setStatus ThreadStatus.READY)).userTicks
      = k.userTicks := rfl
  rw [e, e', (s _).2.1, (s _).2.2.1]

theorem ReadyToRun_ok (k : Kernel) (t : Tid) (hint : k.intOff = true) :
    Scheduler.ReadyToRun k t = Except.ok (ReadyToRun_body k t) := by
  simp [Scheduler.ReadyToRun, hint]

theorem Placed_Insert (c : Tid → Tid → Int) (t : Tid) (l : List Tid) :
    Placed l (SortedList_Insert c t l) t :=
  SortedList_Insert_count c t l

theorem Placed_Append (t : Tid) (l : List Tid) : Placed l (List_Append l t) t := by
  simp [Placed, List_Append]

theorem not_Placed_self (t : Tid) (l : List Tid) : ¬ Placed l l t := by
  simp [Placed]

/-- C1 (amended): with interrupts off, `ReadyToRun` on a thread whose priority
`p` is in 0-149 places it in L1 iff `100 ≤ p`, in L2 iff `50 ≤ p < 100`, in L3
iff `p < 50`; a band it is not placed in is unchanged. -/
theorem ReadyToRun_places_by_priority (k : Kernel) (t : Tid) (hint : k.intOff = true)
    (hp : 0 ≤ (k.threads t).priority) (hp149 : (k.threads t).priority ≤ 149) :
    ∃ r, Scheduler.ReadyToRun k t = Except.ok r ∧
      (Placed k.L1 r.1.L1 t ↔ 100 ≤ (k.threads t).priority) ∧
      (Placed k.L2 r.1.L2 t ↔ 50 ≤ (k.threads t).priority ∧ (k.threads t).priority < 100) ∧
      (Placed k.L3 r.1.L3 t ↔ (k.threads t).priority < 50) ∧
      (¬ Placed k.L1 r.1.L1 t → r.1.L1 = k.L1) ∧
      (¬ Placed k.L2 r.1.L2 t → r.1.L2 = k.L2) ∧
      (¬ Placed k.L3 r.1.L3 t → r.1.L3 = k.L3) := by
  refine ⟨ReadyToRun_body k t, ReadyToRun_ok k t hint, ?_⟩
  obtain ⟨e1, e2, e3⟩ := ReadyToRun_body_bands k t
  rw [e1, e2, e3]
  refine ⟨?_, ?_, ?_, ?_, ?_, ?_⟩
  · split_ifs with h
    · simp [Placed_Insert, h.1]
    · have : ¬ 100 ≤ (k.threads t).priority := by omega
      simp [not_Placed_self, this]
  · split_ifs with h
    · have : 50 ≤ (k.threads t).priority ∧ (k.threads t).priority < 100 := by omega
      simp [Placed_Insert, this]
    · have : ¬ (50 ≤ (k.threads t).priority ∧ (k.threads t).priority < 100) := by omega
      simp [not_Placed_self, this]
  · split_ifs with h
    · have : (k.threads t).priority < 50 := by omega
      simp [Placed_Append, this]
    · have : ¬ (k.threads t).priority < 50 := by omega
      simp [not_Placed_self, this]
  · split_ifs with h
    · intro hn; exact absurd (Placed_Insert _ _ _) hn
    · intro _; rfl
  · split_ifs with h
    · intro hn; exact absurd (Placed_Insert _ _ _) hn
    · intro _; rfl
  · split_ifs with h
    · intro hn; exact absurd (Placed_Append _ _) hn
    · intro _; rfl

/-- Witness for C1: a priority-120 thread on an empty scheduler. -/
theorem ReadyToRun_places_by_priority_witness :
    ∃ r, Scheduler.ReadyToRun boundaryState 2 = Except.ok r ∧
      (Placed boundaryState.L1 r.1.L1 2 ↔ 100 ≤ (boundaryState.threads 2).priority) ∧
      (Placed boundaryState.L2 r.1.L2 2 ↔
        50 ≤ (boundaryState.threads 2).priority ∧ (boundaryState.threads 2).priority < 100) ∧
      (Placed boundaryState.L3 r.1.L3 2 ↔ (boundaryState.threads 2).priority < 50) ∧
      (¬ Placed boundaryState.L1 r.1.L1 2 → r.1.L1 = boundaryState.L1) ∧
      (¬ Placed boundaryState.L2 r.1.L2 2 → r.1.L2 = boundaryState.L2) ∧
      (¬ Placed boundaryState.L3 r.1.L3 2 → r.1.L3 = boundaryState.L3) :=
  ReadyToRun_places_by_priority boundaryState 2 (by decide) (by decide) (by decide)

/-- C1 (counterexample): a thread of priority -1 (< 50) is placed in L2 and not
in L3, and a thread of priority 150 (≥ 100) is placed in no band, L1
included. -/
theorem ReadyToRun_band_counterexample :
    (boundaryState.threads 0).priority = -1 ∧
    ReadyToRun_view boundaryState 0 = some (([], [0], []), false) ∧
    (boundaryState.threads 1).priority = 150 ∧
    ReadyToRun_view boundaryState 1 = some (([], [], []), false) := by
  decide

/-! ## Sequences of calls -/

theorem ReadyToRun_body_enqueue (k : Kernel) (t : Tid) :
    (ReadyToRun_body k t).1.L1 = enqueueL1 k.threads k.L1 t ∧
    (ReadyToRun_body k t).1.L2 = enqueueL2 k.threads k.L2 t ∧
    (ReadyToRun_body k t).1.L3 = enqueueL3 k.threads k.L3 t :=
  ReadyToRun_body_bands k t

theorem enqueueL1_congr {h h' : Heap} (e1 : ∀ a, (h' a).priority = (h a).priority)
    (e2 : ∀ a, (h' a).CPUBurstTime = (h a).CPUBurstTime) : enqueueL1 h' = enqueueL1 h := by
  funext l t
  simp [enqueueL1, e1, cmp1_congr e2]

theorem enqueueL2_congr {h h' : Heap} (e1 : ∀ a, (h' a).priority = (h a).priority) :
    enqueueL2 h' = enqueueL2 h := by
  funext l t
  simp [enqueueL2, e1, cmp2_congr e1]

theorem enqueueL3_congr {h h' : Heap} (e1 : ∀ a, (h' a).priority = (h a).priority) :
    enqueueL3 h' = enqueueL3 h := by
  funext l t
  simp [enqueueL3, e1]

/-- A sequence of `ReadyToRun` calls with interrupts off succeeds; each band is
the fold of its enqueue step over the threads, and priorities and burst
estimates are untouched. -/
theorem ReadyToRun_all_ok (ts : List Tid) :
    ∀ k : Kernel, k.intOff = true →
      ∃ k', ReadyToRun_all k ts = Except.ok k' ∧ k'.intOff = true ∧
        (∀ a, (k'.threads a).priority = (k.threads a).priority) ∧
        (∀ a, (k'.threads a).CPUBurstTime = (k.threads a).CPUBurstTime) ∧
        k'.L1 = ts.foldl (enqueueL1 k.threads) k.L1 ∧
        k'.L2 = ts.foldl (enqueueL2 k.threads) k.L2 ∧
        k'.L3 = ts.foldl (enqueueL3 k.threads) k.L3 := by
  induction ts with
  | nil => intro k hint; exact ⟨k, rfl, hint, fun _ => rfl, fun _ => rfl, rfl, rfl, rfl⟩
  | cons t ts ih =>
    intro k hint
    obtain ⟨f1, f2, -, -, f5, -, -, -, -⟩ := ReadyToRun_body_frame k t
    obtain ⟨b1, b2, b3⟩ := ReadyToRun_body_enqueue k t
    obtain ⟨k', hk', hi', hp', hb', h1, h2, h3⟩ := ih (ReadyToRun_body k t).1 (by rw [f5]; exact hint)
    refine ⟨k', ?_, hi', ?_, ?_, ?_, ?_, ?_⟩
    · simp only [ReadyToRun_all, ReadyToRun_ok k t hint]
      exact hk'
    · intro a; rw [hp', f1]
    · intro a; rw [hb', f2]
    · rw [h1, b1, enqueueL1_congr f1 f2]; rfl
    · rw [h2, b2, enqueueL2_congr f1]; rfl
    · rw [h3, b3, enqueueL3_congr f1]; rfl

theorem FindNextToRun_L1 (k : Kernel) (hint : k.intOff = true) (x : Tid) (xs : List Tid)
    (h : k.L1 = x :: xs) :
    Scheduler.FindNextToRun k = Except.ok (some x, { k with L1 := xs }) := by
  simp [Scheduler.FindNextToRun, hint, h, List_IsEmpty, List_RemoveFront]

theorem FindNextToRun_L2 (k : Kernel) (hint : k.intOff = true) (x : Tid) (xs : List Tid)
    (h1 : k.L1 = []) (h : k.L2 = x :: xs) :
    Scheduler.FindNextToRun k = Except.ok (some x, { k with L2 := xs }) := by
  simp [Scheduler.FindNextToRun, hint, h1, h, List_IsEmpty, List_RemoveFront]

theorem FindNextToRun_L3 (k : Kernel) (hint : k.intOff = true) (x : Tid) (xs : List Tid)
    (h1 : k.L1 = []) (h2 : k.L2 = []) (h : k.L3 = x :: xs) :
    Scheduler.FindNextToRun k = Except.ok (some x, { k with L3 := xs }) := by
  simp [Scheduler.FindNextToRun, hint, h1, h2, h, List_IsEmpty, List_RemoveFront]

theorem FindNextToRun_none (k : Kernel) (hint : k.intOff = true)
    (h1 : k.L1 = []) (h2 : k.L2 = []) (h3 : k.L3 = []) :
    Scheduler.FindNextToRun k = Except.ok (none, k) := by
  simp [Scheduler.FindNextToRun, hint, h1, h2, h3, List_IsEmpty]

/-- Draining L1: as many calls as L1 has threads return L1 front to back. -/
theorem FindNextToRun_times_L1 (l : List Tid) :
    ∀ k : Kernel, k.intOff = true → k.L1 = l →
      ∃ k', FindNextToRun_times l.length k = Except.ok (l.map some, k') := by
  induction l with
  | nil => intro k _ _; exact ⟨k, rfl⟩
  | cons x xs ih =>
    intro k hint h
    obtain ⟨k', hk'⟩ := ih { k with L1 := xs } hint rfl
    refine ⟨k', ?_⟩
    simp only [List.length_cons, FindNextToRun_times, FindNextToRun_L1 k hint x xs h, hk',
      List.map_cons]

/-- Draining L2 while L1 is empty. -/
theorem FindNextToRun_times_L2 (l : List Tid) :
    ∀ k : Kernel, k.intOff = true → k.L1 = [] → k.L2 = l →
      ∃ k', FindNextToRun_times l.length k = Except.ok (l.map some, k') := by
  induction l with
  | nil => intro k _ _ _; exact ⟨k, rfl⟩
  | cons x xs ih =>
    intro k hint h1 h
    obtain ⟨k', hk'⟩ := ih { k with L2 := xs } hint h1 rfl
    refine ⟨k', ?_⟩
    simp only [List.length_cons, FindNextToRun_times, FindNextToRun_L2 k hint x xs h1 h, hk',
      List.map_cons]

/-- Draining L3 while L1 and L2 are empty. -/
theorem FindNextToRun_times_L3 (l : List Tid) :
    ∀ k : Kernel, k.intOff = true → k.L1 = [] → k.L2 = [] → k.L3 = l →
      ∃ k', FindNextToRun_times l.length k = Except.ok (l.map some, k') := by
  induction l with
  | nil => intro k _ _ _ _; exact ⟨k, rfl⟩
  | cons x xs ih =>
    intro k hint h1 h2 h
    obtain ⟨k', hk'⟩ := ih { k with L3 := xs } hint h1 h2 rfl
    refine ⟨k', ?_⟩
    simp only [List.length_cons, FindNextToRun_times, FindNextToRun_L3 k hint x xs h1 h2 h, hk',
      List.map_cons]

/-- C2: with interrupts off, `FindNextToRun` returns the front thread of the
first non-empty band in the order L1, L2, L3, removes exactly that thread from
that band and leaves the other two bands alone; it returns `none` exactly when
all three bands are empty, and then the state is unchanged.  Consequently, on
empty bands, threads enqueued with priorities 120, 70, 20 come back in that
order. -/
theorem FindNextToRun_first_nonempty_band (k : Kernel) (hint : k.intOff = true) :
    (∃ r, Scheduler.FindNextToRun k = Except.ok r ∧
      (∀ x xs, k.L1 = x :: xs →
        r.1 = some x ∧ r.2.L1 = xs ∧ r.2.L2 = k.L2 ∧ r.2.L3 = k.L3) ∧
      (∀ x xs, k.L1 = [] → k.L2 = x :: xs →
        r.1 = some x ∧ r.2.L1 = k.L1 ∧ r.2.L2 = xs ∧ r.2.L3 = k.L3) ∧
      (∀ x xs, k.L1 = [] → k.L2 = [] → k.L3 = x :: xs →
        r.1 = some x ∧ r.2.L1 = k.L1 ∧ r.2.L2 = k.L2 ∧ r.2.L3 = xs) ∧
      (r.1 = none ↔ k.L1 = [] ∧ k.L2 = [] ∧ k.L3 = []) ∧
      (r.1 = none → r.2 = k)) ∧
    (∀ a b c, k.L1 = [] → k.L2 = [] → k.L3 = [] →
      (k.threads a).priority = 120 → (k.threads b).priority = 70 →
      (k.threads c).priority = 20 →
      enqueue_then_dequeue k [a, b, c] 3 = some [some a, some b, some c]) := by
  constructor
  · rcases h1 : k.L1 with _ | ⟨x1, l1⟩
    · rcases h2 : k.L2 with _ | ⟨x2, l2⟩
      · rcases h3 : k.L3 with _ | ⟨x3, l3⟩
        · exact ⟨_, FindNextToRun_none k hint h1 h2 h3, by simp, by simp, by simp, by simp, by simp⟩
        · refine ⟨_, FindNextToRun_L3 k hint x3 l3 h1 h2 h3, by simp, by simp, ?_, by simp, by simp⟩
          intro x xs _ _ e
          cases e
          exact ⟨rfl, h1, h2, rfl⟩
      · refine ⟨_, FindNextToRun_L2 k hint x2 l2 h1 h2, by simp, ?_, by simp, by simp, by simp⟩
        intro x xs _ e
        cases e
        exact ⟨rfl, h1, rfl, rfl⟩
    · refine ⟨_, FindNextToRun_L1 k hint x1 l1 h1, ?_, by simp, by simp, by simp, by simp⟩
      intro x xs e
      cases e
      exact ⟨rfl, rfl, rfl, rfl⟩
  · intro a b c h1 h2 h3 pa pb pc
    obtain ⟨k', hk', hi', -, -, e1, e2, e3⟩ := ReadyToRun_all_ok [a, b, c] k hint
    have q1 : k'.L1 = [a] := by
      rw [e1, h1]; simp [enqueueL1, pa, pb, pc, SortedList_Insert]
    have q2 : k'.L2 = [b] := by
      rw [e2, h2]; simp [enqueueL2, pa, pb, pc, SortedList_Insert]
    have q3 : k'.L3 = [c] := by
      rw [e3, h3]; simp [enqueueL3, pa, pb, pc, List_Append]
    have s1 := FindNextToRun_L1 k' hi' a [] q1
    have s2 := FindNextToRun_L2 { k' with L1 := [] } hi' b [] rfl q2
    have s3 := FindNextToRun_L3 { k' with L1 := [], L2 := [] } hi' c [] rfl rfl q3
    simp only [enqueue_then_dequeue, hk', FindNextToRun_times, s1, s2, s3]

/-- Witness for C2: scenario 1 on a new scheduler. -/
theorem FindNextToRun_first_nonempty_band_witness :
    threeBandState.intOff = true ∧
    enqueue_then_dequeue threeBandState [0, 1, 2] 3 = some [some 0, some 1, some 2] :=
  ⟨by decide,
   (FindNextToRun_first_nonempty_band threeBandState (by decide)).2 0 1 2
     (by decide) (by decide) (by decide) (by decide) (by decide) (by decide)⟩

/-! ## Ordered insertion -/

theorem SortedList_Insert_mem (c : Tid → Tid → Int) (t : Tid) (l : List Tid) (y : Tid) :
    y ∈ SortedList_Insert c t l ↔ y = t ∨ y ∈ l := by
  rw [(SortedList_Insert_perm c t l).mem_iff]
  simp

/-- Inserting into a list that is ascending in `key` keeps a pairwise relation
`R`, provided `R` relates the new item correctly to the old ones. -/
theorem SortedList_Insert_pairwise (c : Tid → Tid → Int) (key : Tid → Int)
    (hc : ∀ a b, c a b < 0 ↔ key a < key b) (R : Tid → Tid → Prop) (t : Tid) :
    ∀ l : List Tid, l.Pairwise (fun a b => key a ≤ key b) → l.Pairwise R →
      (∀ x ∈ l, key x ≤ key t → R x t) → (∀ x ∈ l, key t < key x → R t x) →
      (SortedList_Insert c t l).Pairwise R := by
  intro l
  induction l with
  | nil => intro _ _ _ _; simp [SortedList_Insert]
  | cons x xs ih =>
    intro hs hl h1 h2
    rw [List.pairwise_cons] at hs hl
    unfold SortedList_Insert
    split_ifs with hlt
    · rw [hc] at hlt
      refine List.Pairwise.cons ?_ (List.Pairwise.cons hl.1 hl.2)
      intro y hy
      rcases List.mem_cons.mp hy with rfl | hy'
      · exact h2 _ (List.mem_cons_self _ _) hlt
      · exact h2 y (List.mem_cons_of_mem _ hy') (lt_of_lt_of_le hlt (hs.1 y hy'))
    · rw [hc] at hlt
      refine List.Pairwise.cons ?_ ?_
      · intro y hy
        rcases (SortedList_Insert_mem c t xs y).mp hy with rfl | hy'
        · exact h1 x (List.mem_cons_self _ _) (not_lt.mp hlt)
        · exact hl.1 y hy'
      · exact ih hs.2 hl.2 (fun y hy => h1 y (List.mem_cons_of_mem _ hy))
          (fun y hy => h2 y (List.mem_cons_of_mem _ hy))

/-- Inserting distinct items one after the other into an empty sorted list
gives a permutation in which, of any two items, the earlier one has the
smaller key, or an equal key and was inserted first. -/
theorem SortedList_Insert_foldl (c : Tid → Tid → Int) (key : Tid → Int)
    (hc : ∀ a b, c a b < 0 ↔ key a < key b) (ts : List Tid) :
    (ts.foldl (fun l t => SortedList_Insert c t l) []).Perm ts ∧
    (ts.foldl (fun l t => SortedList_Insert c t l) []).Pairwise
      (fun a b => key a < key b ∨ (key a = key b ∧ List.Sublist [a, b] ts)) := by
  induction ts using List.reverseRecOn with
  | nil => simp
  | append_singleton ts t ih =>
    obtain ⟨hperm, hpw⟩ := ih
    rw [List.foldl_append]
    simp only [List.foldl_cons, List.foldl_nil]
    constructor
    · refine (SortedList_Insert_perm c t _).trans ?_
      refine (List.Perm.cons t hperm).trans ?_
      exact (List.perm_append_singleton t ts).symm
    · apply SortedList_Insert_pairwise c key hc
      · refine hpw.imp ?_
        intro a b hab
        rcases hab with h | h
        · exact le_of_lt h
        · exact le_of_eq h.1
      · refine hpw.imp ?_
        intro a b hab
        rcases hab with h | h
        · exact Or.inl h
        · exact Or.inr ⟨h.1, h.2.trans (List.sublist_append_left ts [t])⟩
      · intro x hx hle
        rcases lt_or_eq_of_le hle with h | h
        · exact Or.inl h
        · refine Or.inr ⟨h, ?_⟩
          have hx' : x ∈ ts := hperm.mem_iff.mp hx
          have : List.Sublist ([x] ++ [t]) (ts ++ [t]) :=
            List.Sublist.append (List.singleton_sublist.mpr hx') (List.Sublist.refl _)
          simpa using this
      · intro x _ hlt
        exact Or.inl hlt

theorem foldl_enqueueL1 (h : Heap) (ts : List Tid)
    (hp : ∀ t ∈ ts, 100 ≤ (h t).priority ∧ (h t).priority ≤ 149) :
    ∀ l, ts.foldl (enqueueL1 h) l = ts.foldl (fun l t => SortedList_Insert (cmp1 h) t l) l := by
  induction ts with
  | nil => intro l; rfl
  | cons t ts ih =>
    intro l
    simp only [List.foldl_cons]
    rw [ih (fun u hu => hp u (List.mem_cons_of_mem _ hu))]
    simp [enqueueL1, hp t (List.mem_cons_self _ _)]

theorem foldl_enqueueL1_other (h : Heap) (ts : List Tid)
    (hp : ∀ t ∈ ts, (h t).priority < 100) :
    ∀ l, ts.foldl (enqueueL1 h) l = l := by
  induction ts with
  | nil => intro l; rfl
  | cons t ts ih =>
    intro l
    simp only [List.foldl_cons]
    rw [ih (fun u hu => hp u (List.mem_cons_of_mem _ hu))]
    have := hp t (List.mem_cons_self _ _)
    have hn : ¬ (100 ≤ (h t).priority ∧ (h t).priority ≤ 149) := by omega
    simp [enqueueL1, hn]

theorem foldl_enqueueL2 (h : Heap) (ts : List Tid)
    (hp : ∀ t ∈ ts, 50 ≤ (h t).priority ∧ (h t).priority ≤ 99) :
    ∀ l, ts.foldl (enqueueL2 h) l = ts.foldl (fun l t => SortedList_Insert (cmp2 h) t l) l := by
  induction ts with
  | nil => intro l; rfl
  | cons t ts ih =>
    intro l
    simp only [List.foldl_cons]
    rw [ih (fun u hu => hp u (List.mem_cons_of_mem _ hu))]
    simp [enqueueL2, hp t (List.mem_cons_self _ _)]

theorem foldl_enqueueL2_other (h : Heap) (ts : List Tid)
    (hp : ∀ t ∈ ts, 0 ≤ (h t).priority ∧ (h t).priority ≤ 49) :
    ∀ l, ts.foldl (enqueueL2 h) l = l := by
  induction ts with
  | nil => intro l; rfl
  | cons t ts ih =>
    intro l
    simp only [List.foldl_cons]
    rw [ih (fun u hu => hp u (List.mem_cons_of_mem _ hu))]
    have := hp t (List.mem_cons_self _ _)
    have hn : ¬ ((h t).priority < 0 ∨ (50 ≤ (h t).priority ∧ (h t).priority ≤ 99)) := by omega
    simp [enqueueL2, hn]

theorem foldl_enqueueL3 (h : Heap) (ts : List Tid)
    (hp : ∀ t ∈ ts, 0 ≤ (h t).priority ∧ (h t).priority ≤ 49) :
    ∀ l, ts.foldl (enqueueL3 h) l = l ++ ts := by
  induction ts with
  | nil => intro l; simp
  | cons t ts ih =>
    intro l
    simp only [List.foldl_cons]
    rw [ih (fun u hu => hp u (List.mem_cons_of_mem _ hu))]
    simp [enqueueL3, hp t (List.mem_cons_self _ _), List_Append]

theorem pair_sublist_total (a b : Tid) (hab : a ≠ b) :
    ∀ l : List Tid, a ∈ l → b ∈ l → List.Sublist [a, b] l ∨ List.Sublist [b, a] l := by
  intro l
  induction l with
  | nil => intro ha; simp at ha
  | cons x xs ih =>
    intro ha hb
    by_cases hxa : x = a
    · subst hxa
      have hb' : b ∈ xs := by
        rcases List.mem_cons.mp hb with h | h
        · exact absurd h.symm hab
        · exact h
      exact Or.inl (List.cons_sublist_cons.mpr (List.singleton_sublist.mpr hb'))
    · by_cases hxb : x = b
      · subst hxb
        have ha' : a ∈ xs := by
          rcases List.mem_cons.mp ha with h | h
          · exact absurd h.symm hxa
          · exact h
        exact Or.inr (List.cons_sublist_cons.mpr (List.singleton_sublist.mpr ha'))
      · have ha' : a ∈ xs := by
          rcases List.mem_cons.mp ha with h | h
          · exact absurd h.symm hxa
          · exact h
        have hb' : b ∈ xs := by
          rcases List.mem_cons.mp hb with h | h
          · exact absurd h.symm hxb
          · exact h
        rcases ih ha' hb' with h | h
        · exact Or.inl (List.Sublist.cons x h)
        · exact Or.inr (List.Sublist.cons x h)

theorem pair_sublist_antisymm (a b : Tid) :
    ∀ l : List Tid, l.Nodup → List.Sublist [a, b] l → List.Sublist [b, a] l → False := by
  intro l
  induction l with
  | nil => intro _ h _; simp at h
  | cons x xs ih =>
    intro hnd h1 h2
    rw [List.nodup_cons] at hnd
    rcases List.sublist_cons_iff.mp h1 with h1 | ⟨r1, e1, s1⟩
    · rcases List.sublist_cons_iff.mp h2 with h2 | ⟨r2, e2, s2⟩
      · exact ih hnd.2 h1 h2
      · have hb : b = x := by simpa using (List.cons.inj e2).1
        have : b ∈ xs := (h1.subset (by simp))
        exact hnd.1 (hb ▸ this)
    · have ha : a = x := by simpa using (List.cons.inj e1).1
      rcases List.sublist_cons_iff.mp h2 with h2 | ⟨r2, e2, s2⟩
      · have : a ∈ xs := (h2.subset (by simp))
        exact hnd.1 (ha ▸ this)
      · have hb : b = x := by simpa using (List.cons.inj e2).1
        have hr : r1 = [b] := by simpa using (List.cons.inj e1).2.symm
        have : b ∈ xs := by
          rw [hr] at s1
          exact List.singleton_sublist.mp s1
        exact hnd.1 (hb ▸ this)

/-- From the pairwise form to the two readings of the claim: ascending keys,
and equal keys keep their insertion order. -/
theorem stable_of_pairwise (key : Tid → Int) (ts l : List Tid) (hnd : ts.Nodup)
    (hperm : l.Perm ts)
    (hpw : l.Pairwise (fun a b => key a < key b ∨ (key a = key b ∧ List.Sublist [a, b] ts))) :
    l.Pairwise (fun a b => key a ≤ key b) ∧
    (∀ a b, List.Sublist [a, b] ts → key a = key b → List.Sublist [a, b] l) := by
  constructor
  · refine hpw.imp ?_
    intro a b hab
    rcases hab with h | h
    · exact le_of_lt h
    · exact le_of_eq h.1
  · intro a b hs hk
    have hab : a ≠ b := by
      have q : [a, b].Pairwise (fun x y => x ≠ y) := List.Pairwise.sublist hs hnd
      simpa using q
    have ha : a ∈ l := hperm.mem_iff.mpr (hs.subset (by simp))
    have hb : b ∈ l := hperm.mem_iff.mpr (hs.subset (by simp))
    rcases pair_sublist_total a b hab l ha hb with h | h
    · exact h
    · exfalso
      rcases List.pairwise_iff_forall_sublist.mp hpw h with h' | h'
      · omega
      · exact pair_sublist_antisymm a b ts hnd hs h'.2

/-- C3: with interrupts off and L1 empty, after `ReadyToRun` on distinct
threads of priorities 100-149, as many `FindNextToRun` calls return exactly
those threads, in ascending order of burst estimate, threads of equal estimate
in the order they were enqueued.  In particular two priority-110 threads
enqueued with estimates 50 then 30 come back burst-30 first. -/
theorem L1_shortest_burst_first (k : Kernel) (ts : List Tid) (hint : k.intOff = true)
    (hL1 : k.L1 = []) (hnd : ts.Nodup)
    (hp : ∀ t ∈ ts, 100 ≤ (k.threads t).priority ∧ (k.threads t).priority ≤ 149) :
    (∃ l, enqueue_then_dequeue k ts ts.length = some (l.map some) ∧ l.Perm ts ∧
      l.Pairwise (fun a b => (k.threads a).CPUBurstTime ≤ (k.threads b).CPUBurstTime) ∧
      (∀ a b, List.Sublist [a, b] ts → (k.threads a).CPUBurstTime = (k.threads b).CPUBurstTime →
        List.Sublist [a, b] l)) ∧
    (∀ a b, ts = [a, b] → (k.threads a).priority = 110 → (k.threads b).priority = 110 →
      (k.threads a).CPUBurstTime = 50 → (k.threads b).CPUBurstTime = 30 →
      enqueue_then_dequeue k ts 1 = some [some b] ∧
      enqueue_then_dequeue k ts 2 = some [some b, some a]) := by
  obtain ⟨k', hk', hi', -, -, e1, -, -⟩ := ReadyToRun_all_ok ts k hint
  rw [hL1, foldl_enqueueL1 k.threads ts hp] at e1
  obtain ⟨hperm, hpw⟩ := SortedList_Insert_foldl (cmp1 k.threads)
    (fun a => (k.threads a).CPUBurstTime) (cmp1_neg_iff k.threads) ts
  rw [← e1] at hperm hpw
  obtain ⟨hsorted, hstable⟩ := stable_of_pairwise _ ts k'.L1 hnd hperm hpw
  constructor
  · refine ⟨k'.L1, ?_, hperm, hsorted, hstable⟩
    obtain ⟨k'', hk''⟩ := FindNextToRun_times_L1 k'.L1 k' hi' rfl
    rw [hperm.length_eq] at hk''
    simp only [enqueue_then_dequeue, hk', hk'']
  · intro a b hts pa pb ba bb
    subst hts
    have q : k'.L1 = [b, a] := by
      rw [e1]
      simp [SortedList_Insert, cmp1, ba, bb]
    have s1 := FindNextToRun_L1 k' hi' b [a] q
    have s2 := FindNextToRun_L1 { k' with L1 := [a] } hi' a [] rfl
    constructor
    · simp only [enqueue_then_dequeue, hk', FindNextToRun_times, s1]
    · simp only [enqueue_then_dequeue, hk', FindNextToRun_times, s1, s2]

/-- Witness for C3: scenario 2 on a new scheduler. -/
theorem L1_shortest_burst_first_witness :
    enqueue_then_dequeue sjfState [0, 1] 1 = some [some 1] ∧
    enqueue_then_dequeue sjfState [0, 1] 2 = some [some 1, some 0] :=
  (L1_shortest_burst_first sjfState [0, 1] (by decide) (by decide) (by decide) (by decide)).2
    0 1 rfl (by decide) (by decide) (by decide) (by decide)

/-- C4: with interrupts off and L1 and L2 empty, after `ReadyToRun` on distinct
threads of priorities 50-99, as many `FindNextToRun` calls return exactly those
threads, in ascending order of priority value, threads of equal priority in the
order they were enqueued. -/
theorem L2_smaller_priority_value_first (k : Kernel) (ts : List Tid) (hint : k.intOff = true)
    (hL1 : k.L1 = []) (hL2 : k.L2 = []) (hnd : ts.Nodup)
    (hp : ∀ t ∈ ts, 50 ≤ (k.threads t).priority ∧ (k.threads t).priority ≤ 99) :
    ∃ l, enqueue_then_dequeue k ts ts.length = some (l.map some) ∧ l.Perm ts ∧
      l.Pairwise (fun a b => (k.threads a).priority ≤ (k.threads b).priority) ∧
      (∀ a b, List.Sublist [a, b] ts → (k.threads a).priority = (k.threads b).priority →
        List.Sublist [a, b] l) := by
  obtain ⟨k', hk', hi', -, -, e1, e2, -⟩ := ReadyToRun_all_ok ts k hint
  rw [hL1, foldl_enqueueL1_other k.threads ts (fun t ht => by have := hp t ht; omega)] at e1
  rw [hL2, foldl_enqueueL2 k.threads ts hp] at e2
  obtain ⟨hperm, hpw⟩ := SortedList_Insert_foldl (cmp2 k.threads)
    (fun a => (k.threads a).priority) (cmp2_neg_iff k.threads) ts
  rw [← e2] at hperm hpw
  obtain ⟨hsorted, hstable⟩ := stable_of_pairwise _ ts k'.L2 hnd hperm hpw
  refine ⟨k'.L2, ?_, hperm, hsorted, hstable⟩
  obtain ⟨k'', hk''⟩ := FindNextToRun_times_L2 k'.L2 k' hi' e1 rfl
  rw [hperm.length_eq] at hk''
  simp only [enqueue_then_dequeue, hk', hk'']

/-- Witness for C4: priorities 70, 60, 70, 50 enqueued in that order. -/
theorem L2_smaller_priority_value_first_witness :
    ∃ l, enqueue_then_dequeue priorityState [0, 1, 2, 3] [0, 1, 2, 3].length
        = some (l.map some) ∧ l.Perm [0, 1, 2, 3] ∧
      l.Pairwise (fun a b => (priorityState.threads a).priority
        ≤ (priorityState.threads b).priority) ∧
      (∀ a b, List.Sublist [a, b] [0, 1, 2, 3] →
        (priorityState.threads a).priority = (priorityState.threads b).priority →
        List.Sublist [a, b] l) :=
  L2_smaller_priority_value_first priorityState [0, 1, 2, 3]
    (by decide) (by decide) (by decide) (by decide) (by decide)

/-- C5: with interrupts off and L1 and L2 empty, after `ReadyToRun` on threads
of priorities 0-49, `FindNextToRun` returns what L3 held before and then the
threads in exactly the order they were enqueued, whatever their priorities and
burst estimates; on an empty L3 the calls return exactly the enqueued threads in
enqueue order. -/
theorem L3_first_in_first_out (k : Kernel) (ts : List Tid) (hint : k.intOff = true)
    (hL1 : k.L1 = []) (hL2 : k.L2 = [])
    (hp : ∀ t ∈ ts, 0 ≤ (k.threads t).priority ∧ (k.threads t).priority ≤ 49) :
    enqueue_then_dequeue k ts (k.L3.length + ts.length) = some ((k.L3 ++ ts).map some) ∧
    (k.L3 = [] → enqueue_then_dequeue k ts ts.length = some (ts.map some)) := by
  obtain ⟨k', hk', hi', -, -, e1, e2, e3⟩ := ReadyToRun_all_ok ts k hint
  rw [hL1, foldl_enqueueL1_other k.threads ts (fun t ht => by have := hp t ht; omega)] at e1
  rw [hL2, foldl_enqueueL2_other k.threads ts hp] at e2
  rw [foldl_enqueueL3 k.threads ts hp] at e3
  obtain ⟨k'', hk''⟩ := FindNextToRun_times_L3 k'.L3 k' hi' e1 e2 rfl
  rw [e3, List.length_append] at hk''
  have main : enqueue_then_dequeue k ts (k.L3.length + ts.length)
      = some ((k.L3 ++ ts).map some) := by
    simp only [enqueue_then_dequeue, hk', hk'']
  refine ⟨main, ?_⟩
  intro h3
  rw [h3] at main
  simpa using main

/-- Witness for C5: priorities 40, 10, 30 enqueued in that order. -/
theorem L3_first_in_first_out_witness :
    enqueue_then_dequeue fifoState [0, 1, 2] 3 = some [some 0, some 1, some 2] :=
  ((L3_first_in_first_out fifoState [0, 1, 2] (by decide) (by decide) (by decide)
    (by decide)).2 (by decide))

/-! ## The preemption check -/

theorem Placed_enqueueL1_iff (h : Heap) (l : List Tid) (t : Tid) :
    Placed l (enqueueL1 h l t) t ↔ (100 ≤ (h t).priority ∧ (h t).priority ≤ 149) := by
  unfold enqueueL1
  split_ifs with hc
  · simp [Placed_Insert, hc]
  · simp [not_Placed_self, hc]

theorem Placed_enqueueL2_iff (h : Heap) (l : List Tid) (t : Tid) :
    Placed l (enqueueL2 h l t) t ↔
      ((h t).priority < 0 ∨ (50 ≤ (h t).priority ∧ (h t).priority ≤ 99)) := by
  unfold enqueueL2
  split_ifs with hc
  · simp [Placed_Insert, hc]
  · simp [not_Placed_self, hc]

theorem Placed_enqueueL3_iff (h : Heap) (l : List Tid) (t : Tid) :
    Placed l (enqueueL3 h l t) t ↔ (0 ≤ (h t).priority ∧ (h t).priority ≤ 49) := by
  unfold enqueueL3
  split_ifs with hc
  · simp [Placed_Append, hc]
  · simp [not_Placed_self, hc]

/-- An exact served time that is a whole number is what the code computes. -/
theorem currentBurstTime_of_exact (k : Kernel) (n : Int)
    (h : servedTime_exact k = (n : ℚ)) : currentBurstTime k = n := by
  unfold servedTime_exact at h
  unfold currentBurstTime
  have h2 : (((k.threads k.currentThread).getBurstTime
      + (k.userTicks - (k.threads k.currentThread).stick) : Int) : ℚ) = ((2 * n : Int) : ℚ) := by
    push_cast
    push_cast at h
    linarith
  have h3 : (k.threads k.currentThread).getBurstTime
      + (k.userTicks - (k.threads k.currentThread).stick) = 2 * n := by
    exact_mod_cast h2
  rw [h3]
  simp [Int.tdiv_eq_ediv]

/-- C6 (amended): with interrupts off and a thread `t` of priority at most 149,
`ReadyToRun` asks the running thread to yield if and only if `t` lands in L1
and the served time `0.5*b + 0.5*e`, truncated toward zero to an integer as the
code computes it, exceeds the burst estimate of `t`; a thread landing in L2
or L3 never triggers a yield; an exact served time of 40 against a
priority-130 thread with estimate 20 requests a yield. -/
theorem ReadyToRun_yield_iff_truncated_served_time (k : Kernel) (t : Tid)
    (hint : k.intOff = true) (hp : (k.threads t).priority ≤ 149) :
    ∃ r, Scheduler.ReadyToRun k t = Except.ok r ∧
      (r.2 = true ↔
        (Placed k.L1 r.1.L1 t ∧ (k.threads t).getBurstTime < currentBurstTime k)) ∧
      (Placed k.L2 r.1.L2 t ∨ Placed k.L3 r.1.L3 t → r.2 = false) ∧
      (servedTime_exact k = 40 → (k.threads t).priority = 130 →
        (k.threads t).getBurstTime = 20 → r.2 = true) := by
  refine ⟨ReadyToRun_body k t, ReadyToRun_ok k t hint, ?_⟩
  obtain ⟨e1, e2, e3⟩ := ReadyToRun_body_enqueue k t
  have hy := ReadyToRun_body_yield k t
  rw [e1, e2, e3, Placed_enqueueL1_iff, Placed_enqueueL2_iff, Placed_enqueueL3_iff]
  have hy' : (ReadyToRun_body k t).2 = true ↔
      (99 < (k.threads t).priority ∧ (k.threads t).getBurstTime < currentBurstTime k) := hy
  refine ⟨?_, ?_, ?_⟩
  · rw [hy']
    constructor
    · rintro ⟨h1, h2⟩
      exact ⟨⟨by omega, hp⟩, h2⟩
    · rintro ⟨⟨h1, _⟩, h2⟩
      exact ⟨by omega, h2⟩
  · intro h
    have hn : ¬ (ReadyToRun_body k t).2 = true := by
      rw [hy']
      rintro ⟨h1, _⟩
      rcases h with h | h <;> omega
    simpa using hn
  · intro hs hpr hb
    rw [hy']
    have hc : currentBurstTime k = 40 := currentBurstTime_of_exact k 40 (by simpa using hs)
    rw [hc, hb, hpr]
    decide

/-- Witness for C6: scenario 3. -/
theorem ReadyToRun_yield_iff_truncated_served_time_witness :
    servedTime_exact preemptState = 40 ∧
    ReadyToRun_view preemptState 1 = some (([1], [], []), true) ∧
    ∃ r, Scheduler.ReadyToRun preemptState 1 = Except.ok r ∧
      (r.2 = true ↔
        (Placed preemptState.L1 r.1.L1 1 ∧
          (preemptState.threads 1).getBurstTime < currentBurstTime preemptState)) ∧
      (Placed preemptState.L2 r.1.L2 1 ∨ Placed preemptState.L3 r.1.L3 1 → r.2 = false) ∧
      (servedTime_exact preemptState = 40 → (preemptState.threads 1).priority = 130 →
        (preemptState.threads 1).getBurstTime = 20 → r.2 = true) :=
  ⟨by norm_num [servedTime_exact, preemptState, Scheduler.new, heapOf, mkThread,
      Thread.getBurstTime],
   by decide,
   ReadyToRun_yield_iff_truncated_served_time preemptState 1 (by decide) (by decide)⟩

/-- C6 (counterexample): the running thread has estimate 21 and has run 20
ticks, so its exact served time is 20.5; a priority-130 thread with estimate
20 lands in L1 and 20.5 > 20, yet no yield is requested because the code
compares the truncated value 20.  And a priority-150 thread with estimate 0
lands in no band, yet a yield is requested. -/
theorem ReadyToRun_yield_counterexample :
    servedTime_exact truncationState = 41 / 2 ∧
    (truncationState.threads 1).priority = 130 ∧
    (truncationState.threads 1).getBurstTime = 20 ∧
    ReadyToRun_view truncationState 1 = some (([1], [], []), false) ∧
    (truncationState.threads 2).priority = 150 ∧
    ReadyToRun_view truncationState 2 = some (([], [], []), true) := by
  refine ⟨?_, by decide, by decide, by decide, by decide, by decide⟩
  norm_num [servedTime_exact, truncationState, Scheduler.new, heapOf, mkThread,
    Thread.getBurstTime]

/-! ## `Run` -/

theorem Run_ok (k : Kernel) (next : Tid) (fin : Bool) (hint : k.intOff = true)
    (hslot : fin = true → k.toBeDestroyed = none) :
    Scheduler.Run k next fin = Except.ok (Run_body k next fin) := by
  unfold Scheduler.Run
  rw [if_neg (by simp [hint]), if_neg]
  rintro ⟨h1, h2⟩
  exact h2 (hslot h1)

theorem Run_error (k : Kernel) (next : Tid) (fin : Bool) (e : Kernel)
    (h : Scheduler.Run k next fin = Except.error e) : e = k := by
  unfold Scheduler.Run at h
  split_ifs at h <;> simp_all

theorem Run_ok_inv (k : Kernel) (next : Tid) (fin : Bool) (k' : Kernel)
    (h : Scheduler.Run k next fin = Except.ok k') :
    k' = Run_body k next fin ∧ k.intOff = true ∧ (fin = true → k.toBeDestroyed = none) := by
  unfold Scheduler.Run at h
  split_ifs at h with h1 h2
  · simp only [Except.ok.injEq] at h
    refine ⟨h.symm, by simpa using h1, ?_⟩
    intro hf
    by_contra hne
    exact h2 ⟨hf, hne⟩

/-- The burst-time update writes only the burst estimate of the old thread. -/
theorem Run_updateBurstTime_burst (k : Kernel) (old : Tid) (t : Tid) :
    ((Run_updateBurstTime k old).threads t).CPUBurstTime =
      if t = old ∧ (k.threads old).CPUBurstTime - (k.userTicks - (k.threads old).stick) > 0
      then (k.threads old).CPUBurstTime - (k.userTicks - (k.threads old).stick)
      else (k.threads t).CPUBurstTime := by
  simp only [Run_updateBurstTime, Thread.getBurstTime, Thread.setBurstTime, Kernel.setThread]
  by_cases ht : t = old
  · subst ht
    split_ifs <;> simp_all
  · split_ifs <;> simp_all [Function.update_noteq ht]

/-- Writing a record with the same burst estimate leaves all estimates alone. -/
theorem setThread_field (k : Kernel) (t : Tid) (v : Thread) (a : Tid)
    (hv : v.CPUBurstTime = (k.threads t).CPUBurstTime) :
    ((k.setThread t v).threads a).CPUBurstTime = (k.threads a).CPUBurstTime := by
  by_cases ha : a = t
  · subst ha; simp [Kernel.setThread, hv]
  · simp [Kernel.setThread, Function.update_noteq ha]

/-- Writing a record with the same time stamp leaves all time stamps alone. -/
theorem setThread_stick (k : Kernel) (t : Tid) (v : Thread) (a : Tid)
    (hv : v.stick = (k.threads t).stick) :
    ((k.setThread t v).threads a).stick = (k.threads a).stick := by
  by_cases ha : a = t
  · subst ha; simp [Kernel.setThread, hv]
  · simp [Kernel.setThread, Function.update_noteq ha]

/-- The burst estimates after lines 240-263 of `Run`. -/
theorem Run_dispatch_burst (k : Kernel) (old next : Tid) (t : Tid) :
    ((Run_dispatch k old next).threads t).CPUBurstTime =
      if t = old ∧ (k.threads old).CPUBurstTime - (k.userTicks - (k.threads old).stick) > 0
      then (k.threads old).CPUBurstTime - (k.userTicks - (k.threads old).stick)
      else (k.threads t).CPUBurstTime := by
  have e1 : ∀ a, ((({ k with currentThread := next } : Kernel).setThread next
      ((k.threads next).setStatus ThreadStatus.RUNNING)).threads a).CPUBurstTime
      = (k.threads a).CPUBurstTime := by
    intro a
    exact setThread_field _ _ _ a (by simp [Thread.setStatus])
  have e2 : ∀ a, ((({ k with currentThread := next } : Kernel).setThread next
      ((k.threads next).setStatus ThreadStatus.RUNNING)).threads a).stick
      = (k.threads a).stick := by
    intro a
    exact setThread_stick _ _ _ a (by simp [Thread.setStatus])
  have e3 : (({ k with currentThread := next } : Kernel).setThread next
      ((k.threads next).setStatus ThreadStatus.RUNNING)).userTicks = k.userTicks := rfl
  simp only [Run_dispatch]
  rw [setThread_field _ _ _ t (by simp), setThread_field _ _ _ t (by simp),
    Run_updateBurstTime_burst, e1, e1, e2, e3]

/-- The burst estimates after the body of `Run`: the old thread gets
`diff = b - (userTicks - stick)` when that is positive, nothing else changes. -/
theorem Run_body_burst (k : Kernel) (next : Tid) (fin : Bool) (t : Tid) :
    ((Run_body k next fin).threads t).CPUBurstTime =
      if t = k.currentThread ∧
        (k.threads k.currentThread).CPUBurstTime
          - (k.userTicks - (k.threads k.currentThread).stick) > 0
      then (k.threads k.currentThread).CPUBurstTime
          - (k.userTicks - (k.threads k.currentThread).stick)
      else (k.threads t).CPUBurstTime := by
  cases fin
  · exact Run_dispatch_burst k k.currentThread next t
  · exact Run_dispatch_burst { k with toBeDestroyed := some k.currentThread } k.currentThread next t

/-- The pending-destroy slot after the body of `Run`. -/
theorem Run_body_slot (k : Kernel) (next : Tid) (fin : Bool) :
    (Run_body k next fin).toBeDestroyed
      = if fin = true then some k.currentThread else k.toBeDestroyed := by
  have h : ∀ k0 : Kernel, (Run_dispatch k0 k.currentThread next).toBeDestroyed
      = k0.toBeDestroyed := by
    intro k0
    simp only [Run_dispatch, Run_updateBurstTime, Kernel.setThread]
    split_ifs <;> rfl
  cases fin
  · exact h k
  · exact h { k with toBeDestroyed := some k.currentThread }

/-- C7 (the code at the failing input): the old thread has estimate 10 and has
been served 4 ticks, so `b - actual = 6 > 0`; `Run` leaves it with estimate 6,
the value of `diff`, where `0.5*b + 0.5*actual` is 7. -/
theorem Run_sets_estimate_to_diff :
    (burstState.threads burstState.currentThread).getBurstTime = 10 ∧
    burstState.userTicks - (burstState.threads burstState.currentThread).stick = 4 ∧
    Run_burstAfter burstState 1 false burstState.currentThread = some 6 ∧
    (1 / 2 : ℚ) * 10 + (1 / 2) * 4 = 7 := by
  refine ⟨by decide, by decide, by decide, by norm_num⟩

/-- C8: a `Run` call made with interrupts off (and, when finishing, an empty
pending-destroy slot) completes; a completed call in which the old thread has
`b - actual ≤ 0` leaves the old thread's burst estimate unchanged, and no
completed call changes the estimate of any other thread; an aborted call
changes nothing at all. -/
theorem Run_burst_estimate_frame (k : Kernel) (next : Tid) (fin : Bool) :
    (k.intOff = true → (fin = true → k.toBeDestroyed = none) →
      ∃ k', Scheduler.Run k next fin = Except.ok k') ∧
    (∀ k', Scheduler.Run k next fin = Except.ok k' →
      ((k.threads k.currentThread).getBurstTime
          - (k.userTicks - (k.threads k.currentThread).stick) ≤ 0 →
        (k'.threads k.currentThread).getBurstTime
          = (k.threads k.currentThread).getBurstTime) ∧
      (∀ t, t ≠ k.currentThread →
        (k'.threads t).getBurstTime = (k.threads t).getBurstTime)) ∧
    (∀ e, Scheduler.Run k next fin = Except.error e → e = k) := by
  refine ⟨?_, ?_, ?_⟩
  · intro hint hslot
    exact ⟨_, Run_ok k next fin hint hslot⟩
  · intro k' hk'
    obtain ⟨rfl, -, -⟩ := Run_ok_inv k next fin k' hk'
    simp only [Thread.getBurstTime]
    constructor
    · intro hd
      rw [Run_body_burst, if_neg]
      rintro ⟨-, h⟩
      omega
    · intro t ht
      rw [Run_body_burst, if_neg]
      rintro ⟨h, -⟩
      exact ht h
  · intro e he
    exact Run_error k next fin e he

/-- Witness for C8: the old thread has estimate 3 and has been served 5 ticks. -/
theorem Run_burst_estimate_frame_witness :
    ∃ k', Scheduler.Run overrunState 1 false = Except.ok k' ∧
      (k'.threads 0).getBurstTime = 3 ∧ (k'.threads 1).getBurstTime = 8 := by
  obtain ⟨k', hk'⟩ := (Run_burst_estimate_frame overrunState 1 false).1 (by decide) (by decide)
  have h := (Run_burst_estimate_frame overrunState 1 false).2.1 k' hk'
  exact ⟨k', hk', (h.1 (by decide)).trans (by decide), (h.2 1 (by decide)).trans (by decide)⟩

/-- C10: `Run(next, finishing = true)` on a state whose pending-destroy slot
holds a thread aborts, and the state at the abort is the state it was given:
slot, current thread, every status and every burst estimate are unchanged.
With interrupts off and the slot empty the call completes and the slot holds
exactly the old thread. -/
theorem Run_finishing_needs_empty_slot (k : Kernel) (next : Tid) :
    (k.toBeDestroyed ≠ none →
      ∃ e, Scheduler.Run k next true = Except.error e ∧
        e.toBeDestroyed = k.toBeDestroyed ∧ e.currentThread = k.currentThread ∧
        (∀ t, (e.threads t).status = (k.threads t).status) ∧
        (∀ t, (e.threads t).getBurstTime = (k.threads t).getBurstTime)) ∧
    (k.intOff = true → k.toBeDestroyed = none →
      ∃ k', Scheduler.Run k next true = Except.ok k' ∧
        k'.toBeDestroyed = some k.currentThread) := by
  constructor
  · intro hs
    refine ⟨k, ?_, rfl, rfl, fun _ => rfl, fun _ => rfl⟩
    unfold Scheduler.Run
    split_ifs with h1 h2
    · rfl
    · rfl
    · exact absurd ⟨rfl, hs⟩ h2
  · intro hint hs
    refine ⟨_, Run_ok k next true hint (fun _ => hs), ?_⟩
    rw [Run_body_slot]
    rfl

/-- Witness for C10: scenario 4, and a finishing `Run` with the slot empty. -/
theorem Run_finishing_needs_empty_slot_witness :
    (∃ e, Scheduler.Run doubleFinishState 1 true = Except.error e ∧
        e.toBeDestroyed = doubleFinishState.toBeDestroyed ∧
        e.currentThread = doubleFinishState.currentThread ∧
        (∀ t, (e.threads t).status = (doubleFinishState.threads t).status) ∧
        (∀ t, (e.threads t).getBurstTime = (doubleFinishState.threads t).getBurstTime)) ∧
    (∃ k', Scheduler.Run burstState 1 true = Except.ok k' ∧
        k'.toBeDestroyed = some burstState.currentThread) :=
  ⟨(Run_finishing_needs_empty_slot doubleFinishState 1).1 (by decide),
   (Run_finishing_needs_empty_slot burstState 1).2 (by decide) (by decide)⟩

/-! ## The pending-destroy slot -/

theorem ReadyToRun_slot (k : Kernel) (t : Tid) (r : Kernel × Bool)
    (h : Scheduler.ReadyToRun k t = Except.ok r) : r.1.toBeDestroyed = k.toBeDestroyed := by
  unfold Scheduler.ReadyToRun at h
  split_ifs at h
  simp only [Except.ok.injEq] at h
  rw [← h]
  exact (ReadyToRun_body_frame k t).2.2.2.2.2.2.2.2

theorem FindNextToRun_slot (k : Kernel) (r : Option Tid × Kernel)
    (h : Scheduler.FindNextToRun k = Except.ok r) : r.2.toBeDestroyed = k.toBeDestroyed := by
  unfold Scheduler.FindNextToRun at h
  split_ifs at h <;> simp only [Except.ok.injEq] at h <;> rw [← h]

theorem Run_slot (k : Kernel) (next : Tid) (fin : Bool) (k' : Kernel)
    (h : Scheduler.Run k next fin = Except.ok k') :
    k'.toBeDestroyed = if fin = true then some k.currentThread else k.toBeDestroyed := by
  obtain ⟨rfl, -, -⟩ := Run_ok_inv k next fin k' h
  exact Run_body_slot k next fin

theorem Run_finishing_slot_empty (k : Kernel) (next : Tid) (k' : Kernel)
    (h : Scheduler.Run k next true = Except.ok k') : k.toBeDestroyed = none :=
  (Run_ok_inv k next true k' h).2.2 rfl

theorem CheckToBeDestroyed_slot (k : Kernel) :
    (Scheduler.CheckToBeDestroyed k).toBeDestroyed = none := by
  unfold Scheduler.CheckToBeDestroyed
  split_ifs with h
  · rfl
  · simpa using h

/-- Along a completed sequence of calls the slot is occupied exactly when a
finishing `Run` is outstanding. -/
theorem execOps_slot (ops : List SchedOp) :
    ∀ (k k' : Kernel), execOps k ops = Except.ok k' →
      k'.toBeDestroyed.isSome = finishPending k.toBeDestroyed.isSome ops := by
  induction ops with
  | nil =>
    intro k k' h
    simp only [execOps, Except.ok.injEq] at h
    rw [← h]; rfl
  | cons op ops ih =>
    intro k k' h
    simp only [execOps] at h
    cases op with
    | readyToRun t =>
      simp only [SchedOp.exec] at h
      cases hr : Scheduler.ReadyToRun k t with
      | error e => rw [hr] at h; simp at h
      | ok r =>
        rw [hr] at h
        rw [ih r.1 k' h, ReadyToRun_slot k t r hr]
        rfl
    | findNextToRun =>
      simp only [SchedOp.exec] at h
      cases hr : Scheduler.FindNextToRun k with
      | error e => rw [hr] at h; simp at h
      | ok r =>
        rw [hr] at h
        rw [ih r.2 k' h, FindNextToRun_slot k r hr]
        rfl
    | run next fin =>
      simp only [SchedOp.exec] at h
      cases hr : Scheduler.Run k next fin with
      | error e => rw [hr] at h; simp at h
      | ok k1 =>
        rw [hr] at h
        rw [ih k1 k' h, Run_slot k next fin k1 hr]
        cases fin
        · rfl
        · rfl
    | checkToBeDestroyed =>
      simp only [SchedOp.exec] at h
      rw [ih _ k' h, CheckToBeDestroyed_slot]
      rfl

/-- C11: from a new scheduler, after every completed sequence of
`ReadyToRun`, `FindNextToRun`, `Run` (up to `SWITCH`) and `CheckToBeDestroyed`
calls the slot (one pointer, so at most one thread) is occupied exactly when
the sequence ends between a `Run` with `finishing = true` and the next
`CheckToBeDestroyed`; a completed finishing `Run` found the slot empty and
leaves the old thread in it; `CheckToBeDestroyed` always leaves the slot empty;
`ReadyToRun`, `FindNextToRun` and `Run` with `finishing = false` do not change
it. -/
theorem pending_destroy_slot_invariant (threads : Heap) (cur : Tid) (userTicks totalTicks : Int)
    (intOff : Bool) (ops : List SchedOp) (k' : Kernel)
    (h : execOps (Scheduler.new threads cur userTicks totalTicks intOff) ops = Except.ok k') :
    (k'.toBeDestroyed.isSome = finishPending false ops) ∧
    (∀ k next k1, Scheduler.Run k next true = Except.ok k1 →
      k.toBeDestroyed = none ∧ k1.toBeDestroyed = some k.currentThread) ∧
    (∀ k, (Scheduler.CheckToBeDestroyed k).toBeDestroyed = none) ∧
    (∀ k t r, Scheduler.ReadyToRun k t = Except.ok r → r.1.toBeDestroyed = k.toBeDestroyed) ∧
    (∀ k r, Scheduler.FindNextToRun k = Except.ok r → r.2.toBeDestroyed = k.toBeDestroyed) ∧
    (∀ k next k1, Scheduler.Run k next false = Except.ok k1 →
      k1.toBeDestroyed = k.toBeDestroyed) := by
  refine ⟨?_, ?_, CheckToBeDestroyed_slot, ReadyToRun_slot, FindNextToRun_slot, ?_⟩
  · exact execOps_slot ops _ k' h
  · intro k next k1 hr
    exact ⟨Run_finishing_slot_empty k next k1 hr, by simpa using Run_slot k next true k1 hr⟩
  · intro k next k1 hr
    simpa using Run_slot k next false k1 hr

/-- Witness for C11: enqueue two threads, dispatch the first with the running
thread finishing (slot occupied), then clean up and dispatch the second (slot
empty). -/
theorem pending_destroy_slot_invariant_witness :
    (∃ k', execOps slotState
        [SchedOp.readyToRun 0, SchedOp.readyToRun 1, SchedOp.findNextToRun,
          SchedOp.run 0 true] = Except.ok k' ∧
      k'.toBeDestroyed = some 2) ∧
    (∃ k', execOps slotState
        [SchedOp.readyToRun 0, SchedOp.readyToRun 1, SchedOp.findNextToRun,
          SchedOp.run 0 true, SchedOp.checkToBeDestroyed, SchedOp.findNextToRun,
          SchedOp.run 1 false] = Except.ok k' ∧
      k'.toBeDestroyed.isSome = false) := by
  refine ⟨⟨_, rfl, by decide⟩, _, rfl, ?_⟩
  exact (pending_destroy_slot_invariant (heapOf [mkThread 120 5, mkThread 20 5, mkThread 0 0])
    2 0 0 true
    [SchedOp.readyToRun 0, SchedOp.readyToRun 1, SchedOp.findNextToRun,
      SchedOp.run 0 true, SchedOp.checkToBeDestroyed, SchedOp.findNextToRun,
      SchedOp.run 1 false] _ rfl).1

/-! ## Aging -/

/-- The aging step writes only the priority of the thread it is given. -/
theorem aging_mechanism_frame (k : Kernel) (a : Tid) :
    (∀ u, ((aging_mechanism k a).threads u).waitingTime = (k.threads u).waitingTime) ∧
    (∀ u, u ≠ a → ((aging_mechanism k a).threads u).priority = (k.threads u).priority) ∧
    (aging_mechanism k a).L1 = k.L1 ∧ (aging_mechanism k a).L2 = k.L2 ∧
    (aging_mechanism k a).L3 = k.L3 := by
  simp only [aging_mechanism, Kernel.setThread, Thread.setPriority, Thread.getPriority,
    Thread.getWaitingTime]
  split_ifs with h
  · refine ⟨?_, ?_, rfl, rfl, rfl⟩
    · intro u
      by_cases hu : u = a
      · subst hu; simp
      · simp [Function.update_noteq hu]
    · intro u hu
      simp [Function.update_noteq hu]
  · exact ⟨fun _ => rfl, fun _ _ => rfl, rfl, rfl, rfl⟩

theorem aging_mechanism_self (k : Kernel) (a : Tid) :
    ((aging_mechanism k a).threads a).priority =
      if 1500 ≤ (k.threads a).waitingTime then (k.threads a).priority + 10
      else (k.threads a).priority := by
  simp only [aging_mechanism, Kernel.setThread, Thread.setPriority, Thread.getPriority,
    Thread.getWaitingTime]
  split_ifs with h1
  · simp
  · rfl

/-- C12: the aging step raises the priority of its thread by exactly 10 when
the accumulated wait-time is at least 1500 ticks and leaves it unchanged
otherwise; it never decreases a priority, and it touches no other thread. -/
theorem aging_mechanism_raises_by_ten (k : Kernel) (a : Tid) :
    ((aging_mechanism k a).threads a).getPriority =
      (if 1500 ≤ (k.threads a).getWaitingTime then (k.threads a).getPriority + 10
        else (k.threads a).getPriority) ∧
    (∀ u, (k.threads u).getPriority ≤ ((aging_mechanism k a).threads u).getPriority) ∧
    (∀ u, u ≠ a → ((aging_mechanism k a).threads u).getPriority = (k.threads u).getPriority) := by
  simp only [Thread.getPriority, Thread.getWaitingTime]
  refine ⟨aging_mechanism_self k a, ?_, (aging_mechanism_frame k a).2.1⟩
  intro u
  by_cases hu : u = a
  · subst hu
    rw [aging_mechanism_self]
    split_ifs <;> omega
  · rw [(aging_mechanism_frame k a).2.1 u hu]

/-- C13 (amended): for a thread whose wait-time is at least 1500, the aging step
gives priority `old + 10` and leaves the wait-time as it is; a second
application, made after the wait-time has become `w`, leaves the priority at
`old + 10` when `w < 1500` and raises it to `old + 20` when `w` is still at
least 1500. -/
theorem aging_mechanism_second_application (k : Kernel) (a : Tid) (w : Int)
    (h : 1500 ≤ (k.threads a).getWaitingTime) :
    ((aging_mechanism k a).threads a).getPriority = (k.threads a).getPriority + 10 ∧
    ((aging_mechanism k a).threads a).getWaitingTime = (k.threads a).getWaitingTime ∧
    ((aging_mechanism
        ((aging_mechanism k a).setThread a
          { (aging_mechanism k a).threads a with waitingTime := w }) a).threads a).getPriority =
      (if 1500 ≤ w then (k.threads a).getPriority + 20 else (k.threads a).getPriority + 10) := by
  simp only [Thread.getPriority, Thread.getWaitingTime] at h ⊢
  have h1 : ((aging_mechanism k a).threads a).priority = (k.threads a).priority + 10 := by
    rw [aging_mechanism_self, if_pos h]
  refine ⟨h1, (aging_mechanism_frame k a).1 a, ?_⟩
  rw [aging_mechanism_self]
  simp only [Kernel.setThread, Function.update_same, h1]
  split_ifs <;> omega

/-- Witness for C13: scenario 5, with the wait-time reset to 0 in between. -/
theorem aging_mechanism_second_application_witness :
    ((aging_mechanism agingState 0).threads 0).getPriority = 10 + 10 ∧
    ((aging_mechanism
        ((aging_mechanism agingState 0).setThread 0
          { (aging_mechanism agingState 0).threads 0 with waitingTime := 0 }) 0).threads
            0).getPriority = 10 + 10 :=
  ⟨(aging_mechanism_second_application agingState 0 0 (by decide)).1,
   (aging_mechanism_second_application agingState 0 0 (by decide)).2.2⟩

/-- C13 (counterexample): a thread at priority 10 that has waited 1600 ticks
goes to 20 on the first aging step and to 30 on a second one in the same
waiting interval. -/
theorem aging_mechanism_retriggers :
    (agingState.threads 0).getPriority = 10 ∧
    (agingState.threads 0).getWaitingTime = 1600 ∧
    ((aging_mechanism agingState 0).threads 0).getPriority = 20 ∧
    ((aging_mechanism agingState 0).threads 0).getWaitingTime = 1600 ∧
    ((aging_mechanism (aging_mechanism agingState 0) 0).threads 0).getPriority = 30 := by
  decide

theorem mem_enqueueL1 (h : Heap) (l : List Tid) (t u : Tid) (hu : u ≠ t) :
    u ∈ enqueueL1 h l t ↔ u ∈ l := by
  unfold enqueueL1
  split_ifs
  · rw [SortedList_Insert_mem]; simp [hu]
  · rfl

theorem mem_enqueueL2 (h : Heap) (l : List Tid) (t u : Tid) (hu : u ≠ t) :
    u ∈ enqueueL2 h l t ↔ u ∈ l := by
  unfold enqueueL2
  split_ifs
  · rw [SortedList_Insert_mem]; simp [hu]
  · rfl

theorem mem_enqueueL3 (h : Heap) (l : List Tid) (t u : Tid) (hu : u ≠ t) :
    u ∈ enqueueL3 h l t ↔ u ∈ l := by
  unfold enqueueL3
  split_ifs
  · simp [List_Append, hu]
  · rfl

theorem mem_enqueueL1_of_mem (h : Heap) (l : List Tid) (t u : Tid) (hu : u ∈ l) :
    u ∈ enqueueL1 h l t := by
  unfold enqueueL1
  split_ifs
  · rw [SortedList_Insert_mem]; exact Or.inr hu
  · exact hu

theorem mem_enqueueL2_of_mem (h : Heap) (l : List Tid) (t u : Tid) (hu : u ∈ l) :
    u ∈ enqueueL2 h l t := by
  unfold enqueueL2
  split_ifs
  · rw [SortedList_Insert_mem]; exact Or.inr hu
  · exact hu

theorem mem_enqueueL3_of_mem (h : Heap) (l : List Tid) (t u : Tid) (hu : u ∈ l) :
    u ∈ enqueueL3 h l t := by
  unfold enqueueL3
  split_ifs
  · simp [List_Append, hu]
  · exact hu

/-- C14 (amended): `ReadyToRun` does not run the aging sweep: with interrupts
off the call changes the priority of no thread, whatever the wait-times, and
every thread already queued stays in its band (a thread other than the one
passed in is in a band after the call iff it was before).  The aging step
itself, applied to a thread queued in L3 at priority 10 with 1600 ticks of
wait-time, gives it priority 20 and leaves it in L3. -/
theorem ReadyToRun_runs_no_aging_sweep (k : Kernel) (t : Tid) (hint : k.intOff = true) :
    ∃ r, Scheduler.ReadyToRun k t = Except.ok r ∧
      (∀ u, (r.1.threads u).getPriority = (k.threads u).getPriority) ∧
      (∀ u, (u ∈ k.L1 → u ∈ r.1.L1) ∧ (u ∈ k.L2 → u ∈ r.1.L2) ∧ (u ∈ k.L3 → u ∈ r.1.L3)) ∧
      (∀ u, u ≠ t →
        ((u ∈ r.1.L1 ↔ u ∈ k.L1) ∧ (u ∈ r.1.L2 ↔ u ∈ k.L2) ∧ (u ∈ r.1.L3 ↔ u ∈ k.L3))) ∧
      (∀ u, u ∈ k.L3 → (k.threads u).getPriority = 10 → (k.threads u).getWaitingTime = 1600 →
        ((aging_mechanism k u).threads u).getPriority = 20 ∧ u ∈ (aging_mechanism k u).L3) := by
  refine ⟨ReadyToRun_body k t, ReadyToRun_ok k t hint, ?_⟩
  obtain ⟨e1, e2, e3⟩ := ReadyToRun_body_enqueue k t
  rw [e1, e2, e3]
  refine ⟨(ReadyToRun_body_frame k t).1, ?_, ?_, ?_⟩
  · intro u
    exact ⟨mem_enqueueL1_of_mem _ _ t u, mem_enqueueL2_of_mem _ _ t u,
      mem_enqueueL3_of_mem _ _ t u⟩
  · intro u hu
    exact ⟨mem_enqueueL1 _ _ t u hu, mem_enqueueL2 _ _ t u hu, mem_enqueueL3 _ _ t u hu⟩
  · intro u hu hp hw
    simp only [Thread.getPriority, Thread.getWaitingTime] at hp hw ⊢
    rw [aging_mechanism_self, hw, hp, (aging_mechanism_frame k u).2.2.2.2]
    exact ⟨by decide, hu⟩

/-- Witness for C14: scenario 5, thread 1 is enqueued while thread 0 waits in
L3. -/
theorem ReadyToRun_runs_no_aging_sweep_witness :
    ∃ r, Scheduler.ReadyToRun agingState 1 = Except.ok r ∧
      (∀ u, (r.1.threads u).getPriority = (agingState.threads u).getPriority) ∧
      (∀ u, (u ∈ agingState.L1 → u ∈ r.1.L1) ∧ (u ∈ agingState.L2 → u ∈ r.1.L2) ∧
        (u ∈ agingState.L3 → u ∈ r.1.L3)) ∧
      (∀ u, u ≠ 1 →
        ((u ∈ r.1.L1 ↔ u ∈ agingState.L1) ∧ (u ∈ r.1.L2 ↔ u ∈ agingState.L2) ∧
          (u ∈ r.1.L3 ↔ u ∈ agingState.L3))) ∧
      (∀ u, u ∈ agingState.L3 → (agingState.threads u).getPriority = 10 →
        (agingState.threads u).getWaitingTime = 1600 →
        ((aging_mechanism agingState u).threads u).getPriority = 20 ∧
          u ∈ (aging_mechanism agingState u).L3) :=
  ReadyToRun_runs_no_aging_sweep agingState 1 (by decide)

/-- C14 (counterexample): thread 0 is queued in L3 at priority 10 and has
waited 1600 ticks; `ReadyToRun` on thread 1 leaves thread 0 at priority 10, in
L3. -/
theorem ReadyToRun_leaves_waiting_priority :
    agingState.L3 = [0] ∧
    (agingState.threads 0).getPriority = 10 ∧
    (agingState.threads 0).getWaitingTime = 1600 ∧
    ReadyToRun_priority_view agingState 1 0 = some 10 ∧
    ReadyToRun_view agingState 1 = some (([], [], [0, 1]), false) := by
  decide

/-! ## Priorities outside 0-149, and the second set of queues -/

/-- C15 (the code at the failing inputs): a blocked thread of priority 150 is
marked `READY`, enters none of L1, L2, L3 and is put on `L1_readyList`; a
blocked thread of priority -1 is marked `READY` and is inserted in L2, the band
of priorities 50-99. -/
theorem ReadyToRun_out_of_range_priority :
    (outOfRangeState.threads 0).priority = 150 ∧
    (outOfRangeState.threads 0).status = ThreadStatus.BLOCKED ∧
    ReadyToRun_status_view outOfRangeState 0
      = some (ThreadStatus.READY, [[], [], []], [[0], [], []]) ∧
    (outOfRangeState.threads 1).priority = -1 ∧
    (outOfRangeState.threads 1).status = ThreadStatus.BLOCKED ∧
    ReadyToRun_status_view outOfRangeState 1
      = some (ThreadStatus.READY, [[], [1], []], [[], [], []]) := by
  decide

/-- C16 (the code at the failing input): on a new scheduler, after
`ReadyToRun` a priority-120 thread is in two queues, L1 and `L1_readyList`;
after `FindNextToRun` has returned it and `Run` has made it `RUNNING` it is
still in `L1_readyList`. -/
theorem running_thread_still_queued :
    (execOps_view slotState [SchedOp.readyToRun 0]).map
        (fun k => (k.L1, k.L1_readyList, k.membership 0)) = some ([0], [0], 2) ∧
    enqueue_then_dequeue slotState [0] 1 = some [some 0] ∧
    (execOps_view slotState
        [SchedOp.readyToRun 0, SchedOp.findNextToRun, SchedOp.run 0 false]).map
        (fun k => ((k.threads 0).status, k.currentThread, k.L1, k.L1_readyList, k.membership 0))
      = some (ThreadStatus.RUNNING, 0, [], [0], 1) := by
  decide

/-- C20 (the code at the failing input): a thread of priority 145 that has
waited 1500 ticks leaves the aging step with priority 155, and a later
`ReadyToRun` marks it `READY` and puts it in none of L1, L2, L3. -/
theorem aging_mechanism_leaves_range :
    (topPriorityState.threads 0).getPriority = 145 ∧
    (topPriorityState.threads 0).getWaitingTime = 1500 ∧
    ((aging_mechanism topPriorityState 0).threads 0).getPriority = 155 ∧
    ReadyToRun_status_view (aging_mechanism topPriorityState 0) 0
      = some (ThreadStatus.READY, [[], [], []], [[0], [], []]) := by
  decide

/-! ## File headers -/

/-- On a multi-level header `ByteToSector` never returns a value: the result of
the recursive call is dropped and the function ends without `return`. -/
theorem ByteToSector_multilevel_no_value {B : Type} (E : FileSysEnv B)
    (disk : Int → Option FileHeader) (d : Nat) (hdr : FileHeader) (offset : Int)
    (h : E.L0 < hdr.numBytes) (v : Int) :
    FileHeader.ByteToSector E disk d hdr offset ≠ Except.ok (some v) := by
  cases d with
  | zero => simp [FileHeader.ByteToSector]
  | succ d =>
    simp only [FileHeader.ByteToSector]
    rw [if_neg (by omega)]
    cases disk (hdr.dataSectors (Int.tdiv offset (levelSizeOf E hdr.numBytes))) with
    | none => simp
    | some c =>
      simp only []
      cases FileHeader.ByteToSector E disk d c
        (offset - Int.tdiv offset (levelSizeOf E hdr.numBytes) * levelSizeOf E hdr.numBytes) with
      | error e => simp
      | ok r => simp

/-- C17 (the code at the failing input): 128-byte sectors, `L0 = 3840`, a free
map with 32 clear sectors and a file of 3841 bytes, which needs 31 data sectors
and 2 child headers.  `Allocate` returns `TRUE`; the second child header
(sector 31) describes 1 sector but records -1 for it, because its own
`Allocate` returned `FALSE` and the result was dropped. -/
theorem Allocate_ignores_header_sectors :
    stockEnv.NumClear (emptyDisk 32).freeMap = 32 ∧
    stockEnv.divRoundUp 3841 stockEnv.SectorSize = 31 ∧
    (Allocate_on 32 3841).map (fun r => r.1) = some true ∧
    (Allocate_on 32 3841).map
      (fun r => (r.2.1.numSectors, r.2.1.dataSectors 0, r.2.1.dataSectors 1)) = some (31, 0, 31) ∧
    (Allocate_on 32 3841).map
      (fun r => (r.2.2.disk 0).map (fun c => (c.numBytes, c.numSectors, c.dataSectors 0,
        c.dataSectors 29))) = some (some (3840, 30, 1, 30)) ∧
    (Allocate_on 32 3841).map
      (fun r => (r.2.2.disk 31).map (fun c => (c.numBytes, c.numSectors, c.dataSectors 0)))
      = some (some (1, 1, -1)) ∧
    (Allocate_on 32 3841).map (fun r => stockEnv.NumClear r.2.2.freeMap) = some 0 := by
  decide

/-- C18 (the code at the failing input): 128-byte sectors, `L0 = 3840`, 40 free
sectors and a file of 3841 bytes.  `Allocate` returns `TRUE` and marks sectors
0-32 (headers in 0 and 31).  `Deallocate` on that header runs its loop up to
`numSectors = 31` although the table has 2 entries, and stops at entry 2, which
is -1 and names no header.  The two rounds that do find a header clear the
data sectors only: sectors 0 and 31 stay marked. -/
theorem Deallocate_multilevel_does_not_restore :
    (Allocate_on 40 3841).map (fun r => (r.1, r.2.1.numSectors)) = some (true, 31) ∧
    (Allocate_on 40 3841).map
      (fun r => (r.2.1.dataSectors 0, r.2.1.dataSectors 1, r.2.1.dataSectors 2))
      = some (0, 31, -1) ∧
    (Allocate_on 40 3841).map (fun r => r.2.2.freeMap)
      = some (List.replicate 33 true ++ List.replicate 7 false) ∧
    Deallocate_after_Allocate 40 3841 = some (Sum.inl Fault.noHeader) ∧
    Deallocate_rounds_after_Allocate 40 3841 2
      = some (Sum.inr ([true] ++ List.replicate 30 false ++ [true] ++ List.replicate 8 false)) := by
  decide

/-- C19 (the code at the failing input): 128-byte sectors, `L0 = 3840`, 40 free
sectors and a file of 3841 bytes, allocated successfully.  Byte 0 is in data
sector 1, the first entry of the child header in sector 0, and `ByteToSector`
on that child returns 1; `ByteToSector(0)` on the file header returns no
value. -/
theorem ByteToSector_multilevel_returns_nothing :
    (Allocate_on 40 3841).map (fun r => r.1) = some true ∧
    ByteToSector_of_child 40 3841 0 0 = some (some (Sum.inr (some 1))) ∧
    ByteToSector_after_Allocate 40 3841 0 = some (Sum.inr none) := by
  decide

/-! ## The order of L1 -/

/-- `ReadyToRun` keeps L1 in ascending order of the current estimates. -/
theorem ReadyToRun_L1_ascending (k : Kernel) (t : Tid) (r : Kernel × Bool)
    (h : Scheduler.ReadyToRun k t = Except.ok r) (hs : L1_ascending k) : L1_ascending r.1 := by
  unfold Scheduler.ReadyToRun at h
  split_ifs at h
  simp only [Except.ok.injEq] at h
  subst h
  have hb := (ReadyToRun_body_frame k t).2.1
  have e1 := (ReadyToRun_body_enqueue k t).1
  unfold L1_ascending at hs ⊢
  simp only [Thread.getBurstTime] at hs ⊢
  rw [e1]
  simp only [hb]
  unfold enqueueL1
  split_ifs
  · exact SortedList_Insert_pairwise (cmp1 k.threads) (fun a => (k.threads a).CPUBurstTime)
      (cmp1_neg_iff k.threads) _ t k.L1 hs hs (fun _ _ hle => hle) (fun _ _ hlt => le_of_lt hlt)
  · exact hs

/-- `FindNextToRun` keeps L1 in ascending order of the current estimates. -/
theorem FindNextToRun_L1_ascending (k : Kernel) (r : Option Tid × Kernel)
    (h : Scheduler.FindNextToRun k = Except.ok r) (hs : L1_ascending k) : L1_ascending r.2 := by
  unfold L1_ascending at hs ⊢
  unfold Scheduler.FindNextToRun at h
  split_ifs at h <;> simp only [Except.ok.injEq] at h <;> subst h
  · cases hl : k.L1 with
    | nil => simp [List_RemoveFront]
    | cons x xs =>
      rw [hl] at hs
      simp only [List_RemoveFront]
      exact (List.pairwise_cons.mp hs).2
  · exact hs
  · exact hs
  · exact hs

/-- The body of `Run` leaves the three bands as they are. -/
theorem Run_body_L1 (k : Kernel) (next : Tid) (fin : Bool) :
    (Run_body k next fin).L1 = k.L1 := by
  have h : ∀ k0 : Kernel, (Run_dispatch k0 k.currentThread next).L1 = k0.L1 := by
    intro k0
    simp only [Run_dispatch, Run_updateBurstTime, Kernel.setThread]
    split_ifs <;> rfl
  cases fin
  · exact h k
  · exact h { k with toBeDestroyed := some k.currentThread }

/-- `Run` keeps L1 in ascending order of the current estimates when the thread
it switches away from is not in L1. -/
theorem Run_L1_ascending (k : Kernel) (next : Tid) (fin : Bool) (k' : Kernel)
    (h : Scheduler.Run k next fin = Except.ok k') (hold : k.currentThread ∉ k.L1)
    (hs : L1_ascending k) : L1_ascending k' := by
  obtain ⟨rfl, -, -⟩ := Run_ok_inv k next fin k' h
  unfold L1_ascending at hs ⊢
  simp only [Thread.getBurstTime] at hs ⊢
  rw [Run_body_L1]
  have hb : ∀ a ∈ k.L1,
      ((Run_body k next fin).threads a).CPUBurstTime = (k.threads a).CPUBurstTime := by
    intro a ha
    rw [Run_body_burst, if_neg]
    rintro ⟨e, -⟩
    exact hold (e ▸ ha)
  have key : ∀ l : List Tid, (∀ a ∈ l,
      ((Run_body k next fin).threads a).CPUBurstTime = (k.threads a).CPUBurstTime) →
      l.Pairwise (fun a b => (k.threads a).CPUBurstTime ≤ (k.threads b).CPUBurstTime) →
      l.Pairwise (fun a b => ((Run_body k next fin).threads a).CPUBurstTime
        ≤ ((Run_body k next fin).threads b).CPUBurstTime) := by
    intro l hl hp
    induction hp with
    | nil => exact List.Pairwise.nil
    | cons hx _ ih =>
      refine List.Pairwise.cons ?_ (ih (fun a ha => hl a (List.mem_cons_of_mem _ ha)))
      intro b hb'
      rw [hl _ (List.mem_cons_self _ _), hl b (List.mem_cons_of_mem _ hb')]
      exact hx b hb'
  exact key k.L1 hb hs

/-- C21 (the code at the failing input): threads 1 (estimate 8) and 0
(estimate 5) become ready and L1 is `[0, 1]`.  The running thread 2 (estimate
10, served 6 ticks) yields: `FindNextToRun` returns thread 0, `ReadyToRun` puts
thread 2 behind thread 1, and `Run` then rewrites the estimate of thread 2 to
`10 - 6 = 4` while it sits in L1.  L1 is `[1, 2]` with estimates 8 and 4, not
ascending, and the next `FindNextToRun` returns thread 1 although thread 2 has
the smaller estimate. -/
theorem Run_breaks_L1_order :
    (execOps_view yieldState [SchedOp.readyToRun 1, SchedOp.readyToRun 0]).map L1_estimates
      = some [(0, 5), (1, 8)] ∧
    (execOps_view yieldState [SchedOp.readyToRun 1, SchedOp.readyToRun 0]).bind
      FindNextToRun_view = some (some 0) ∧
    (execOps_view yieldState
        [SchedOp.readyToRun 1, SchedOp.readyToRun 0, SchedOp.findNextToRun,
          SchedOp.readyToRun 2]).map L1_estimates = some [(1, 8), (2, 10)] ∧
    (execOps_view yieldState yieldTrace).map L1_estimates = some [(1, 8), (2, 4)] ∧
    (execOps_view yieldState yieldTrace).map (fun k => decide (L1_ascending k)) = some false ∧
    (execOps_view yieldState yieldTrace).bind FindNextToRun_view = some (some 1) := by
  decide

end Nachos
